import Mathlib

/-!
Shallow embedding of the storage engine of the ESTL repository
(treichler/ESTL): the CRC32 primitive (Crc.c), the linear EEPROM backend
(Storage_Eeprom.c, fake-NV-memory hardware variant), the alternating
two-block EEPROM backend (Storage_EepromAlternate.c) and the two-page
flash backend (Storage_Flash.c).

Modelling conventions:
- machine integers are Nat; where C truncates to a fixed width the model
  takes the value modulo 2^w at the same place the C code truncates
  (stores into uint8/uint16 fields and uint8 arithmetic);
- byte-addressed memories are total functions Nat -> Nat; the target and
  I2C transport primitives (external collaborators of the engine) either
  always succeed (flash, reads) or are driven by an explicit outcome
  parameter (I2C EEPROM writes), which models externally caused failures
  such as an interrupted or failed bus transfer;
- C functions returning int32_t that multiplex an error code (negative)
  with a byte count (non-negative) are modelled with Except: .error e for
  the negative error-code branch, .ok for the non-negative branch;
- the flash backend's build-time configuration is fixed to the example
  documented in Storage_Flash.c (page size 2048, two pages, 64-bit write
  alignment, empty value 0xFFFFFFFF); the EEPROM backends keep their
  configuration (image sizes, device size) as explicit parameters;
- the one indeterminate byte in the C code (the padding byte of the
  linear backend's storage_header_t) is fixed to 0; no modelled
  behaviour depends on its value, only on its consistency.
-/

set_option maxRecDepth 100000

/-- Error codes of Error.h, restricted to the constructors the storage
modules use. The C enum encodes them as distinct negative ints; only
their identity matters here. -/
inductive error_code_t where
  | OK
  | UNKNOWN_ERROR
  | INDEX_OUT_OF_BOUNDARY
  | BUFFER_TOO_SMALL
  | NOT_ACCESSIBLE
  | I2C_ERROR
  | STORAGE_NOT_INITIALIZED
  | STORAGE_ENUM_MISMATCH
  | STORAGE_CRC_MISMATCH
  | STORAGE_NVMEM_TOO_SMALL
  | STORAGE_INDEX_MISMATCH
  | STORAGE_DATA_TOO_BIG
  | STORAGE_DATA_UNAVAILABLE
  | STORAGE_IMAGE_UNCERTAIN
  deriving DecidableEq, Repr

/-- Decidable equality of Except results, used to evaluate the model's
read results on concrete inputs. -/
instance {ε α : Type} [DecidableEq ε] [DecidableEq α] : DecidableEq (Except ε α) := fun x y =>
  match x, y with
  | .error a, .error b =>
    if h : a = b then isTrue (congrArg Except.error h)
    else isFalse (fun hh => h (by injection hh))
  | .error _, .ok _ => isFalse (fun hh => Except.noConfusion hh)
  | .ok _, .error _ => isFalse (fun hh => Except.noConfusion hh)
  | .ok a, .ok b =>
    if h : a = b then isTrue (congrArg Except.ok h)
    else isFalse (fun hh => h (by injection hh))

/-- A byte-addressed memory: address to byte value. -/
abbrev Mem := Nat → Nat

/-- Read `len` consecutive bytes starting at `addr` (the memcpy-out of
the raw read primitives). -/
def memReadBytes (m : Mem) (addr len : Nat) : List Nat :=
  (List.range len).map (fun i => m (addr + i))

/-- Write the byte list `data` at `addr` (the memcpy-in of the raw write
primitives); all other addresses keep their previous content. -/
def memWriteBytes (m : Mem) (addr : Nat) (data : List Nat) : Mem :=
  fun a => if addr ≤ a ∧ a < addr + data.length then data.getD (a - addr) 0 else m a

/-- Flip bit `j` of the byte stored at address `addr` (the tamper event
of the spec's tamper-detection property). -/
def memFlipBit (m : Mem) (addr j : Nat) : Mem :=
  fun a => if a = addr then m a ^^^ 2 ^ j else m a

/-- Little-endian decoding of a 16-bit field stored at `a` (the in-memory
layout of the uint16 header fields on the little-endian targets ESTL
is built for). -/
def rdLe16 (m : Mem) (a : Nat) : Nat :=
  m a + 256 * m (a + 1)

/-- Little-endian decoding of a 32-bit field stored at `a`. -/
def rdLe32 (m : Mem) (a : Nat) : Nat :=
  m a + 256 * m (a + 1) + 65536 * m (a + 2) + 16777216 * m (a + 3)

/-- Little-endian byte serialization of a uint16 value. -/
def le16 (v : Nat) : List Nat :=
  [v % 256, v / 256 % 256]

/-- Little-endian byte serialization of a uint32 value. -/
def le32 (v : Nat) : List Nat :=
  [v % 256, v / 256 % 256, v / 65536 % 256, v / 16777216 % 256]

/-- The static crc32_half_lookup table of Crc_Crc32 (Crc.c). -/
def crc32_half_lookup (i : Nat) : Nat :=
  match i with
  | 0 => 0x00000000
  | 1 => 0x1DB71064
  | 2 => 0x3B6E20C8
  | 3 => 0x26D930AC
  | 4 => 0x76DC4190
  | 5 => 0x6B6B51F4
  | 6 => 0x4DB26158
  | 7 => 0x5005713C
  | 8 => 0xEDB88320
  | 9 => 0xF00F9344
  | 10 => 0xD6D6A3E8
  | 11 => 0xCB61B38C
  | 12 => 0x9B64C2B0
  | 13 => 0x86D3D2D4
  | 14 => 0xA00AE278
  | _ => 0xBDBDF21C

/-- One half-byte update of the CRC32 state: one of the two statements
in the loop body of Crc_Crc32 (Crc.c line 79 resp. 80). -/
def crcNib (crc x : Nat) : Nat :=
  (crc >>> 4) ^^^ crc32_half_lookup ((crc ^^^ x) &&& 0xF)

/-- One full loop iteration of Crc_Crc32: low nibble of the data byte,
then high nibble. -/
def crcByteStep (crc b : Nat) : Nat :=
  crcNib (crcNib crc b) (b >>> 4)

/-- Crc_Crc32 (Crc.c lines 69..84): xor the seed with 0xFFFFFFFF,
run the half-byte loop over the data, xor the result with 0xFFFFFFFF
(the C code's final bitwise-not on a uint32). -/
def Crc_Crc32 (data : List Nat) (previous_crc32 : Nat) : Nat :=
  (data.foldl crcByteStep (previous_crc32 ^^^ 0xFFFFFFFF)) ^^^ 0xFFFFFFFF

/-- Iterate the CRC32 byte step on the all-zero message: the evolution
of the state difference introduced by a bit flip while the remaining
(identical) message bytes are processed. -/
def crcZeroIter (d : Nat) : Nat → Nat
  | 0 => d
  | n + 1 => crcZeroIter (crcByteStep d 0) n

/-! ## Linear EEPROM backend (Storage_Eeprom.c, fake-NV-memory variant) -/

/-- NR_OF_STORAGES: the storage_id_t enumeration has three data blocks. -/
def NR_OF_STORAGES : Nat := 3

/-- FAKE_NV_MEMORY_size (Storage_Eeprom.c line 78). -/
def FAKE_NV_MEMORY_size : Nat := 256

/-- Build-time configuration of the linear EEPROM backend: the three
ESTL_STORAGE_*_IMAGE_SIZE macros that fill Storage_table. -/
structure EepromCfg where
  parameter_image_size : Nat
  application_image_size : Nat
  adaptive_data_image_size : Nat

/-- Storage_table[i].size. -/
def EepromCfg.size (cfg : EepromCfg) : Nat → Nat
  | 0 => cfg.parameter_image_size
  | 1 => cfg.application_image_size
  | _ => cfg.adaptive_data_image_size

/-- Storage_table[i].addr as computed by the loop in StorageEeprom_Init
(sum of the preceding sizes, starting at STORAGE_START_ADDRESS = 0). -/
def Storage_table_addr (cfg : EepromCfg) : Nat → Nat
  | 0 => 0
  | 1 => cfg.parameter_image_size
  | _ => cfg.parameter_image_size + cfg.application_image_size

/-- Mutable state of the linear backend: the initialized flag and the
fake-NV-memory byte array of StorageEeprom_data. -/
structure EepromState where
  is_initialized : Bool
  fake_nv_memory : Mem

/-- Storage_NvMemWrite, fake-NV-memory variant (Storage_Eeprom.c lines
115..121): rejects accesses with addr + size >= 256 (note the >=),
otherwise memcpy into the RAM array. -/
def Storage_NvMemWrite (m : Mem) (addr : Nat) (data : List Nat) : error_code_t × Mem :=
  if addr + data.length ≥ FAKE_NV_MEMORY_size then (.NOT_ACCESSIBLE, m)
  else (.OK, memWriteBytes m addr data)

/-- Storage_NvMemRead, fake-NV-memory variant (Storage_Eeprom.c lines
123..129). -/
def Storage_NvMemRead (m : Mem) (addr len : Nat) : Except error_code_t (List Nat) :=
  if addr + len ≥ FAKE_NV_MEMORY_size then .error .NOT_ACCESSIBLE
  else .ok (memReadBytes m addr len)

/-- Byte image of the linear backend's storage_header_t
(crc32 : uint32, size : uint16, index : storage_id_t as one byte, plus
one struct padding byte fixed to 0). sizeof(storage_header_t) = 8. -/
def storage_header_bytes_eeprom (crc32 size index : Nat) : List Nat :=
  le32 crc32 ++ le16 size ++ [index % 256, 0]

/-- Header tail the linear backend checksums: bytes 4..7 of the header,
i.e. ((uint8_t*)&header) + 4 for sizeof - 4 bytes. -/
def storage_header_tail_eeprom (size index : Nat) : List Nat :=
  le16 size ++ [index % 256, 0]

/-- StorageEeprom_Init (Storage_Eeprom.c lines 181..198): fill the
address column of Storage_table (here derived by Storage_table_addr) and
fail with STORAGE_NVMEM_TOO_SMALL if the layout exceeds the device. The
NR_OF_STORAGE_ENTRIES check compares two compile-time-equal constants
and cannot fire. -/
def StorageEeprom_Init (cfg : EepromCfg) (s : EepromState) : error_code_t × EepromState :=
  if cfg.parameter_image_size + cfg.application_image_size + cfg.adaptive_data_image_size
      > FAKE_NV_MEMORY_size then
    (.STORAGE_NVMEM_TOO_SMALL, s)
  else
    (.OK, { s with is_initialized := true })

/-- StorageEeprom_Write (Storage_Eeprom.c lines 204..225). `size` is the
C int16_t byte count; the physical payload is the first `size` bytes of
`data`. -/
def StorageEeprom_Write (cfg : EepromCfg) (s : EepromState) (index : Nat)
    (data : List Nat) (size : Nat) : error_code_t × EepromState :=
  if s.is_initialized = false then (.STORAGE_NOT_INITIALIZED, s)
  else if NR_OF_STORAGES ≤ index then (.INDEX_OUT_OF_BOUNDARY, s)
  else if size + 8 > cfg.size index then (.STORAGE_DATA_TOO_BIG, s)
  else
    let crc := Crc_Crc32 (storage_header_tail_eeprom size index) 0
    let crc32 := Crc_Crc32 (data.take size) crc
    match Storage_NvMemWrite s.fake_nv_memory (Storage_table_addr cfg index)
        (storage_header_bytes_eeprom crc32 size index) with
    | (.OK, m1) =>
      match Storage_NvMemWrite m1 (Storage_table_addr cfg index + 8) (data.take size) with
      | (.OK, m2) => (.OK, { s with fake_nv_memory := m2 })
      | (e, m2) => (e, { s with fake_nv_memory := m2 })
    | (e, m1) => (e, { s with fake_nv_memory := m1 })

/-- StorageEeprom_Read (Storage_Eeprom.c lines 231..253). On success
returns header.size together with the bytes copied into the caller's
buffer; otherwise the error the C code returns as a negative int32. -/
def StorageEeprom_Read (cfg : EepromCfg) (s : EepromState) (index bufsize : Nat) :
    Except error_code_t (Nat × List Nat) :=
  if s.is_initialized = false then .error .STORAGE_NOT_INITIALIZED
  else if NR_OF_STORAGES ≤ index then .error .INDEX_OUT_OF_BOUNDARY
  else
    let addr := Storage_table_addr cfg index
    if addr + 8 ≥ FAKE_NV_MEMORY_size then .error .NOT_ACCESSIBLE
    else
      let hsize := rdLe16 s.fake_nv_memory (addr + 4)
      let hindex := s.fake_nv_memory (addr + 6)
      if hindex ≠ index then .error .STORAGE_INDEX_MISMATCH
      else if hsize > bufsize then .error .BUFFER_TOO_SMALL
      else if addr + 8 + hsize ≥ FAKE_NV_MEMORY_size then .error .NOT_ACCESSIBLE
      else
        let payload := memReadBytes s.fake_nv_memory (addr + 8) hsize
        let crc := Crc_Crc32 (memReadBytes s.fake_nv_memory (addr + 4) 4) 0
        if rdLe32 s.fake_nv_memory addr ≠ Crc_Crc32 payload crc then
          .error .STORAGE_CRC_MISMATCH
        else .ok (hsize, payload)

/-! ## Alternating two-block EEPROM backend (Storage_EepromAlternate.c) -/

/-- Build-time configuration of the alternating backend: the I2C EEPROM
size and the three page-optimized image sizes of estimated_image_sizes
(the PAGE_OPTIMIZED_IMAGE_SIZE of the ESTL_STORAGE_*_IMAGE_SIZE
macros). -/
structure AltCfg where
  eeprom_size : Nat
  est0 : Nat
  est1 : Nat
  est2 : Nat

/-- estimated_image_sizes[i]. -/
def AltCfg.est (cfg : AltCfg) : Nat → Nat
  | 0 => cfg.est0
  | 1 => cfg.est1
  | _ => cfg.est2

/-- MAX_IMAGE_SIZE: the largest of the three page-optimized image
sizes (the init-time stack buffer is MAX_IMAGE_SIZE - sizeof(header)
bytes). -/
def AltCfg.maxImage (cfg : AltCfg) : Nat :=
  max cfg.est0 (max cfg.est1 cfg.est2)

/-- addr[b] for slot i as assigned during StorageEepromAlternate_Init:
block 0 starts at 0, block 1 at I2C_EEPROM_SIZE / 2; within a block the
slots are laid out consecutively by estimated_image_sizes. -/
def altBlockAddr (cfg : AltCfg) (b i : Nat) : Nat :=
  (if b = 0 then 0 else cfg.eeprom_size / 2) +
    (if i = 0 then 0 else if i = 1 then cfg.est0 else cfg.est0 + cfg.est1)

/-- One storage_entry_t of the alternating backend. -/
structure alt_entry where
  addr0 : Nat
  addr1 : Nat
  error0 : error_code_t
  error1 : error_code_t
  current_block : Nat
  counter : Nat
  deriving DecidableEq, Repr

/-- Mutable state of the alternating backend: the per-slot entries, the
initialized flag, and the I2C EEPROM byte content. -/
structure AltState where
  entry : Nat → alt_entry
  is_initialized : Bool
  mem : Mem

/-- Outcome of one external I2C EEPROM write transaction, the external
collaborator behind StorageI2cEeprom_NvMemWrite: either the full
transfer succeeds, or it fails with error `e` after the first `k` bytes
reached the device (an interrupted or failed bus transfer). -/
inductive nv_outcome where
  | ok
  | fail (k : Nat) (e : error_code_t)
  deriving DecidableEq, Repr

/-- StorageI2cEeprom_NvMemWrite (Storage_I2cEeprom.c): rejects accesses
with addr + size >= EEPROM_SIZE (note the >=), otherwise performs the
page-chunked I2C transfer whose result is given by the outcome
parameter. -/
def StorageI2cEeprom_NvMemWrite (cfg : AltCfg) (o : nv_outcome) (m : Mem)
    (addr : Nat) (data : List Nat) : error_code_t × Mem :=
  if addr + data.length ≥ cfg.eeprom_size then (.STORAGE_DATA_TOO_BIG, m)
  else
    match o with
    | .ok => (.OK, memWriteBytes m addr data)
    | .fail k e => (e, memWriteBytes m addr (data.take k))

/-- Header tail of the alternating backend's storage_header_t: size
(uint16), index (one byte), counter (uint8); sizeof(storage_header_t)
is 8 with no padding. -/
def storage_header_tail_alt (size index counter : Nat) : List Nat :=
  le16 size ++ [index % 256, counter % 256]

/-- Full 8-byte image of the alternating backend's storage_header_t. -/
def storage_header_bytes_alt (crc32 size index counter : Nat) : List Nat :=
  le32 crc32 ++ storage_header_tail_alt size index counter

/-- StorageEepromAlternate_ReadMinimalCheck (Storage_EepromAlternate.c
lines 201..223): read the header of `block`, check index and buffer
size, read the payload and check the CRC. I2C read transport is modelled
as reliable (content-determined); transport failures are external to the
algorithm under study. -/
def StorageEepromAlternate_ReadMinimalCheck (s : AltState) (index block bufsize : Nat) :
    Except error_code_t (Nat × List Nat) :=
  let a := if block = 0 then (s.entry index).addr0 else (s.entry index).addr1
  let hsize := rdLe16 s.mem (a + 4)
  let hindex := s.mem (a + 6)
  if hindex ≠ index then .error .STORAGE_INDEX_MISMATCH
  else if hsize > bufsize then .error .BUFFER_TOO_SMALL
  else
    let payload := memReadBytes s.mem (a + 8) hsize
    let crc := Crc_Crc32 (memReadBytes s.mem (a + 4) 4) 0
    if rdLe32 s.mem a ≠ Crc_Crc32 payload crc then .error .STORAGE_CRC_MISMATCH
    else .ok (hsize, payload)

/-- Per-slot body of the init loop (Storage_EepromAlternate.c lines
175..194). Block 0 is checked first: if it validates, its counter and
block number are taken. Block 1 then replaces that choice if it
validates and either block 0 did not, or the int-promoted difference
header.counter - entry.counter equals exactly 1 (both counters are
uint8_t, so the C subtraction is an exact difference in int). -/
def altInitEntry (cfg : AltCfg) (mem : Mem) (i : Nat) : alt_entry :=
  let a0 := altBlockAddr cfg 0 i
  let a1 := altBlockAddr cfg 1 i
  let bufsize := cfg.maxImage - 8
  let base : alt_entry :=
    { addr0 := a0, addr1 := a1, error0 := .OK, error1 := .OK,
      current_block := 0, counter := 0 }
  let s0 : AltState := { entry := fun _ => base, is_initialized := false, mem := mem }
  let r0 := StorageEepromAlternate_ReadMinimalCheck s0 i 0 bufsize
  let err0 := match r0 with | .error e => e | .ok _ => .OK
  let e0 : alt_entry :=
    if err0 = .OK then
      { base with error0 := err0, counter := mem (a0 + 7), current_block := 0 }
    else { base with error0 := err0 }
  let s1 : AltState := { entry := fun _ => e0, is_initialized := false, mem := mem }
  let r1 := StorageEepromAlternate_ReadMinimalCheck s1 i 1 bufsize
  let err1 := match r1 with | .error e => e | .ok _ => .OK
  if err1 = .OK ∧ (err0 ≠ .OK ∨ ((mem (a1 + 7) : Int) - (e0.counter : Int)) = 1) then
    { e0 with error1 := err1, counter := mem (a1 + 7), current_block := 1 }
  else { e0 with error1 := err1 }

/-- StorageEepromAlternate_Init (Storage_EepromAlternate.c lines
168..198): assign both block addresses of every slot, minimally check
both blocks, pick the current block per slot, record per-block errors,
and unconditionally mark the module initialized and return OK. -/
def StorageEepromAlternate_Init (cfg : AltCfg) (mem : Mem) : error_code_t × AltState :=
  (.OK, { entry := fun i => altInitEntry cfg mem i, is_initialized := true, mem := mem })

/-- StorageEepromAlternate_Read (Storage_EepromAlternate.c lines
229..242): plausibility checks, then ReadMinimalCheck on the slot's
current block. -/
def StorageEepromAlternate_Read (s : AltState) (index bufsize : Nat) :
    Except error_code_t (Nat × List Nat) :=
  if s.is_initialized = false then .error .STORAGE_NOT_INITIALIZED
  else if NR_OF_STORAGES ≤ index then .error .INDEX_OUT_OF_BOUNDARY
  else StorageEepromAlternate_ReadMinimalCheck s index (s.entry index).current_block bufsize

/-- StorageEepromAlternate_Write (Storage_EepromAlternate.c lines
248..283): plausibility checks; build the header with counter + 1
(uint8); write header then payload to the block that is not current
((current_block + 1) & 0x01); only after both physical writes returned
OK update the in-RAM counter and current_block. `o1`/`o2` are the
outcomes of the two I2C transfers. -/
def StorageEepromAlternate_Write (cfg : AltCfg) (o1 o2 : nv_outcome) (s : AltState)
    (index : Nat) (data : List Nat) (size : Nat) : error_code_t × AltState :=
  if s.is_initialized = false then (.STORAGE_NOT_INITIALIZED, s)
  else if NR_OF_STORAGES ≤ index then (.INDEX_OUT_OF_BOUNDARY, s)
  else if size + 8 > cfg.est index then (.STORAGE_DATA_TOO_BIG, s)
  else
    let entry := s.entry index
    let hcounter := (entry.counter + 1) % 256
    let crc := Crc_Crc32 (storage_header_tail_alt size index hcounter) 0
    let crc32 := Crc_Crc32 (data.take size) crc
    let wb := (entry.current_block + 1) &&& 1
    let wa := if wb = 0 then entry.addr0 else entry.addr1
    let w1 := StorageI2cEeprom_NvMemWrite cfg o1 s.mem wa
      (storage_header_bytes_alt crc32 size index hcounter)
    if w1.1 ≠ .OK then (w1.1, { s with mem := w1.2 })
    else
      let w2 := StorageI2cEeprom_NvMemWrite cfg o2 w1.2 (wa + 8) (data.take size)
      if w2.1 ≠ .OK then (w2.1, { s with mem := w2.2 })
      else
        let entries := fun j =>
          if j = index then { entry with counter := hcounter, current_block := wb }
          else s.entry j
        (.OK, { s with mem := w2.2, entry := entries })

/-- StorageEepromAlternate_GetImageVitality (Storage_EepromAlternate.c
lines 289..319). -/
def StorageEepromAlternate_GetImageVitality (s : AltState) (index : Nat) : error_code_t :=
  if NR_OF_STORAGES ≤ index then .INDEX_OUT_OF_BOUNDARY
  else
    let entry := s.entry index
    if entry.error0 = .OK ∧ entry.error1 = .OK then .OK
    else if entry.error0 ≠ .OK ∧ entry.error1 ≠ .OK then
      (if entry.current_block = 0 then entry.error0 else entry.error1)
    else if entry.error0 = .OK then
      (if entry.error1 = .STORAGE_CRC_MISMATCH then .STORAGE_IMAGE_UNCERTAIN else .OK)
    else
      (if entry.error0 = .STORAGE_CRC_MISMATCH then .STORAGE_IMAGE_UNCERTAIN else .OK)

/-! ## Flash backend (Storage_Flash.c)

Configuration fixed to the example documented in Storage_Flash.c:
NV_MEM_DATA_ALIGNMENT 64, NV_MEM_PAGE_SIZE 2048, NV_MEM_TOTAL_PAGES 2,
NV_MEM_PAGE_EMPTY_VALUE 0xFFFFFFFF. sizeof(storage_header_t) = 8 and
sizeof(page_info_t) = 8. The scan loops of StorageFlash_Init are written
with a fuel parameter of 2048 steps; every iteration advances the scan
address by at least 4, and the address is bounded by 2048, so the fuel
can never be exhausted and the functions compute exactly the C loops. -/

/-- NV_MEM_PAGE_SIZE of the documented example configuration. -/
def NV_MEM_PAGE_SIZE : Nat := 2048

/-- NV_MEM_PAGE_INFO_ADDR = NV_MEM_PAGE_SIZE - sizeof(page_info_t). -/
def NV_MEM_PAGE_INFO_ADDR : Nat := 2040

/-- BYTES_PER_FLASH_BLOCK = NV_MEM_DATA_ALIGNMENT / 8. -/
def BYTES_PER_FLASH_BLOCK : Nat := 8

/-- The flash device: page index and in-page address to byte value. -/
abbrev FlashMem := Nat → Nat → Nat

/-- Direct read access to flash memory, byte range. -/
def flashReadBytes (fm : FlashMem) (page addr len : Nat) : List Nat :=
  (List.range len).map (fun i => fm page (addr + i))

/-- Direct read access to a uint16 field in flash (little-endian). -/
def flashRdLe16 (fm : FlashMem) (page a : Nat) : Nat :=
  fm page a + 256 * fm page (a + 1)

/-- Direct read access to a uint32 field in flash (little-endian). -/
def flashRdLe32 (fm : FlashMem) (page a : Nat) : Nat :=
  fm page a + 256 * fm page (a + 1) + 65536 * fm page (a + 2) + 16777216 * fm page (a + 3)

/-- Target_NvMemWrite: the target-specific flash write primitive,
modelled as a reliable device (the pseudo-code of Storage_Flash.c; its
error return is always OK here). -/
def Target_NvMemWrite (fm : FlashMem) (page addr : Nat) (data : List Nat) : FlashMem :=
  fun p a => if p = page ∧ addr ≤ a ∧ a < addr + data.length then data.getD (a - addr) 0 else fm p a

/-- Target_NvMemErasePage: after the erase every byte of the page reads
as the empty pattern 0xFF. -/
def Target_NvMemErasePage (fm : FlashMem) (page : Nat) : FlashMem :=
  fun p a => if p = page then 0xFF else fm p a

/-- page_state_t (Storage_Flash.c). -/
inductive page_state_t where
  | PAGE_UNINITIALIZED
  | PAGE_IS_VALID
  | PAGE_IS_CORRUPTED
  deriving DecidableEq, Repr

/-- page_status_info_t: address of the next free entry and page status. -/
structure page_status_info_t where
  address : Nat
  status : page_state_t
  deriving DecidableEq, Repr

/-- StorageFlash_Data: per-slot pointers to the live record (modelled as
page/address pairs instead of raw pointers), per-page status, active
page, initialized flag; the flash content is carried alongside. -/
structure FlashState where
  headers : Nat → Option (Nat × Nat)
  pages_info : Nat → page_status_info_t
  active_page : Nat
  is_initialized : Bool
  mem : FlashMem

/-- StorageFlash_GetSizeRoundedToFlashBlock (Storage_Flash.c lines
312..317): round up to the 8-byte flash write granularity.
byte_size & ~FLASH_BLOCK_SIZE_MASK is written byte_size minus its low
bits. -/
def StorageFlash_GetSizeRoundedToFlashBlock (byte_size : Nat) : Nat :=
  if byte_size &&& 7 ≠ 0 then (byte_size - (byte_size &&& 7)) + BYTES_PER_FLASH_BLOCK
  else byte_size

/-- StorageFlash_RecordIsValid (Storage_Flash.c lines 320..328):
structural bound check against the page-info footer, then CRC over
header tail plus payload in one call. -/
def StorageFlash_RecordIsValid (fm : FlashMem) (page addr : Nat) : Bool :=
  let hsize := flashRdLe16 fm page (addr + 4)
  if addr + 8 + hsize > NV_MEM_PAGE_INFO_ADDR then false
  else if flashRdLe32 fm page addr ≠
      Crc_Crc32 (flashReadBytes fm page (addr + 4) (4 + hsize)) 0 then false
  else true

/-- Record-tracking step of the init scan (Storage_Flash.c lines
346..358): if the record's index is in range and its CRC matches, adopt
it as the slot's tracked record when the slot has none yet, or when the
uint8 difference new counter - tracked counter lies in 1..127. -/
def flashTrackRecord (fm : FlashMem) (headers : Nat → Option (Nat × Nat))
    (page addr : Nat) : Nat → Option (Nat × Nat) :=
  let hsize := flashRdLe16 fm page (addr + 4)
  let hindex := fm page (addr + 6)
  let hcounter := fm page (addr + 7)
  if hindex < NR_OF_STORAGES ∧ flashRdLe32 fm page addr =
      Crc_Crc32 (flashReadBytes fm page (addr + 4) (4 + hsize)) 0 then
    match headers hindex with
    | none => fun j => if j = hindex then some (page, addr) else headers j
    | some (op, oa) =>
      let diff := (256 + hcounter - fm op (oa + 7)) % 256
      if 0 < diff ∧ diff ≤ 127 then
        fun j => if j = hindex then some (page, addr) else headers j
      else headers
  else headers

/-- The record scan loop of StorageFlash_Init (Storage_Flash.c lines
341..362): while the next header is structurally valid and its CRC
matches, track it and advance by sizeof(header) plus the rounded payload
size. Returns the updated tracking map and the final scan address. -/
def flashScanPage (fm : FlashMem) (page : Nat) :
    Nat → (Nat → Option (Nat × Nat)) → Nat → ((Nat → Option (Nat × Nat)) × Nat)
  | 0, headers, address => (headers, address)
  | fuel + 1, headers, address =>
    if address < NV_MEM_PAGE_INFO_ADDR ∧ StorageFlash_RecordIsValid fm page address = true then
      flashScanPage fm page fuel (flashTrackRecord fm headers page address)
        (address + 8 + StorageFlash_GetSizeRoundedToFlashBlock (flashRdLe16 fm page (address + 4)))
    else (headers, address)

/-- The trailing-emptiness loop of StorageFlash_Init (Storage_Flash.c
lines 374..383): every 32-bit cell from the scan address up to the
page-info footer must read as NV_MEM_PAGE_EMPTY_VALUE. -/
def flashPageTailEmpty (fm : FlashMem) (page : Nat) : Nat → Nat → Bool
  | 0, _ => true
  | fuel + 1, address =>
    if address < NV_MEM_PAGE_INFO_ADDR then
      if flashRdLe32 fm page address ≠ 0xFFFFFFFF then false
      else flashPageTailEmpty fm page fuel (address + 4)
    else true

/-- Page evaluation of StorageFlash_Init for one page: page-info
address, status and emptiness flag. When the scan overshoots the footer
the status is corrupted and the address field keeps its zero-initialized
static value. -/
def flashEvalPage (fm : FlashMem) (page : Nat) (headers : Nat → Option (Nat × Nat)) :
    (Nat → Option (Nat × Nat)) × page_status_info_t × Bool :=
  let (h, a) := flashScanPage fm page 2048 headers 0
  if a ≤ NV_MEM_PAGE_INFO_ADDR then
    (h, { address := a,
          status := if flashPageTailEmpty fm page 2048 a then .PAGE_IS_VALID
                    else .PAGE_IS_CORRUPTED },
      a == 0)
  else
    (h, { address := 0, status := .PAGE_IS_CORRUPTED }, false)

/-- StorageFlash_Init (Storage_Flash.c lines 334..413): scan both pages,
classify them, choose the active page (both empty: page 0; none empty:
the one with more remaining space; otherwise the page holding data), and
mark the module initialized. -/
def StorageFlash_Init (fm : FlashMem) : error_code_t × FlashState :=
  let (h0, info0, empty0) := flashEvalPage fm 0 (fun _ => none)
  let (h1, info1, empty1) := flashEvalPage fm 1 h0
  let active :=
    if empty0 && empty1 then 0
    else if !empty0 && !empty1 then (if info0.address < info1.address then 0 else 1)
    else (if info0.address ≠ 0 then 0 else 1)
  (.OK, { headers := h1,
          pages_info := fun p => if p = 0 then info0 else info1,
          active_page := active,
          is_initialized := true,
          mem := fm })

/-- StorageFlash_PageHoldsValidDataSize (Storage_Flash.c lines 438..448):
sum of header size plus payload size of the tracked records located in
`page` (a NULL pointer resolves to page 0xFF and never matches). -/
def StorageFlash_PageHoldsValidDataSize (s : FlashState) (page : Nat) : Nat :=
  [0, 1, 2].foldl
    (fun acc i =>
      match s.headers i with
      | some (p, a) => if p = page then acc + 8 + flashRdLe16 s.mem p (a + 4) else acc
      | none => acc) 0

/-- StorageFlash_ErasePage (Storage_Flash.c lines 451..470): read the
old erase counter from the page-info footer, erase the page, mark it
valid and empty, and write back the incremented page info. -/
def StorageFlash_ErasePage (s : FlashState) (page : Nat) : FlashState :=
  if page < 2 then
    let ec := flashRdLe16 s.mem page NV_MEM_PAGE_INFO_ADDR
    let m1 := Target_NvMemErasePage s.mem page
    let m2 := Target_NvMemWrite m1 page NV_MEM_PAGE_INFO_ADDR
      (le16 ((ec + 1) % 65536) ++ [0xFF, 0xFF, 0xFF, 0xFF, 0xFF, 0xFF])
    { s with
      mem := m2
      pages_info := fun p => if p = page then { address := 0, status := .PAGE_IS_VALID }
                             else s.pages_info p }
  else s

/-- Per-slot body of StorageFlash_MigrateToActivePage's copy loop
(Storage_Flash.c lines 483..511): re-frame the record with counter + 1
(uint8) and a fresh CRC, append header and payload to the active page,
repoint the slot's tracked record and advance the active page's next
free address. -/
def flashMigrateSlot (page : Nat) (s : FlashState) (i : Nat) : FlashState :=
  match s.headers i with
  | some (p, oa) =>
    if p = page then
      let active := s.active_page
      let aaddr := (s.pages_info active).address
      let size := flashRdLe16 s.mem p (oa + 4)
      let hindex := s.mem p (oa + 6)
      let hcounter := (s.mem p (oa + 7) + 1) % 256
      let crc := Crc_Crc32 (storage_header_tail_alt size hindex hcounter) 0
      let crc32 := Crc_Crc32 (flashReadBytes s.mem p (oa + 8) size) crc
      let m1 := Target_NvMemWrite s.mem active aaddr
        (storage_header_bytes_alt crc32 size hindex hcounter)
      let m2 := Target_NvMemWrite m1 active (aaddr + 8) (flashReadBytes s.mem p (oa + 8) size)
      { s with
        mem := m2
        headers := fun j => if j = i then some (active, aaddr) else s.headers j
        pages_info := fun q => if q = active then
            { s.pages_info q with
              address := aaddr + 8 + StorageFlash_GetSizeRoundedToFlashBlock size }
          else s.pages_info q }
    else s
  | none => s

/-- StorageFlash_MigrateToActivePage (Storage_Flash.c lines 473..513):
nothing to do if the page holds no tracked data; fail if the active page
lacks space; otherwise copy every tracked record of `page` onto the
active page. -/
def StorageFlash_MigrateToActivePage (s : FlashState) (page : Nat) : Bool × FlashState :=
  let valid_data_size := StorageFlash_PageHoldsValidDataSize s page
  if valid_data_size = 0 then (true, s)
  else if valid_data_size > NV_MEM_PAGE_INFO_ADDR - (s.pages_info s.active_page).address then
    (false, s)
  else (true, [0, 1, 2].foldl (flashMigrateSlot page) s)

/-- StorageFlash_RenewPage (Storage_Flash.c lines 516..578): copy the
raw bytes of the page's tracked records into a RAM buffer (the stack
buffer's indeterminate remainder is fixed to 0), erase the page, write
the buffer back in one transfer and repoint the tracked records. The
buffer index advances by (8 + size) / 8 64-bit words, mirroring the C
integer division. -/
def StorageFlash_RenewPage (s : FlashState) (page : Nat) : error_code_t × FlashState :=
  if 2 ≤ page then (.INDEX_OUT_OF_BOUNDARY, s)
  else
    let step := fun (st : Mem × Nat × (Nat → Option Nat)) (i : Nat) =>
      let (buffer, buffer_index, addresses) := st
      match s.headers i with
      | some (p, oa) =>
        if p = page then
          let size := flashRdLe16 s.mem p (oa + 4)
          (memWriteBytes buffer (buffer_index * 8) (flashReadBytes s.mem p oa (8 + size)),
           buffer_index + (8 + size) / 8,
           fun j => if j = i then some (buffer_index * 8) else addresses j)
        else st
      | none => st
    let (buffer, buffer_index, addresses) :=
      [0, 1, 2].foldl step ((fun _ => 0), 0, (fun _ => none))
    let s1 := StorageFlash_ErasePage s page
    if 0 < buffer_index then
      let m := Target_NvMemWrite s1.mem page 0 (memReadBytes buffer 0 (buffer_index * 8))
      (.OK, { s1 with
        mem := m
        pages_info := fun q => if q = page then
            { s1.pages_info q with address := buffer_index * 8 }
          else s1.pages_info q
        headers := fun j => match addresses j with
          | some a => some (page, a)
          | none => s1.headers j })
    else (.OK, s1)

/-- The next page after `p` (wrapping at NV_MEM_TOTAL_PAGES = 2). -/
def flashNextPage (p : Nat) : Nat :=
  if 2 ≤ p + 1 then 0 else p + 1

/-- StorageFlash_PrepareAffectedPages (Storage_Flash.c lines 581..623):
renew the active page if it was marked corrupted at init; if the next
page is not empty-and-valid, migrate its tracked records to the active
page (on migration failure the code documents data loss and continues)
and erase it; finally switch the active page if the pending record does
not fit. -/
def StorageFlash_PrepareAffectedPages (s : FlashState) (size : Nat) : FlashState :=
  let next_page := flashNextPage s.active_page
  let s1 :=
    if (s.pages_info s.active_page).status = .PAGE_IS_CORRUPTED then
      (StorageFlash_RenewPage s s.active_page).2
    else s
  let s2 :=
    if (s1.pages_info next_page).address ≠ 0 ∨ (s1.pages_info next_page).status ≠ .PAGE_IS_VALID then
      StorageFlash_ErasePage (StorageFlash_MigrateToActivePage s1 next_page).2 next_page
    else s1
  if NV_MEM_PAGE_INFO_ADDR < (s2.pages_info s2.active_page).address + 8 + size then
    { s2 with active_page := next_page }
  else s2

/-- StorageFlash_Write (Storage_Flash.c lines 629..684): plausibility
checks; prepare the affected pages; skip the physical write if the first
`size` bytes of the tracked record's payload equal the new data (the
memcmp compares exactly `size` bytes and does not compare the stored
record's own size); otherwise append header and payload at the active
page's next free address, repoint the tracked record and advance the
address by the rounded size. -/
def StorageFlash_Write (s : FlashState) (storage_id : Nat) (data : List Nat) (size : Nat) :
    error_code_t × FlashState :=
  if s.is_initialized = false then (.STORAGE_NOT_INITIALIZED, s)
  else if NR_OF_STORAGES ≤ storage_id then (.INDEX_OUT_OF_BOUNDARY, s)
  else if NV_MEM_PAGE_INFO_ADDR < 8 + size then (.STORAGE_DATA_TOO_BIG, s)
  else if (s.pages_info s.active_page).status = .PAGE_UNINITIALIZED then (.UNKNOWN_ERROR, s)
  else
    let s1 := StorageFlash_PrepareAffectedPages s size
    let skip : Bool := match s1.headers storage_id with
      | some (p, a) => flashReadBytes s1.mem p (a + 8) size == data.take size
      | none => false
    if skip then (.OK, s1)
    else
      let counter := match s1.headers storage_id with
        | none => 0
        | some (p, a) => (s1.mem p (a + 7) + 1) % 256
      let crc := Crc_Crc32 (storage_header_tail_alt size storage_id counter) 0
      let crc32 := Crc_Crc32 (data.take size) crc
      let active := s1.active_page
      let aaddr := (s1.pages_info active).address
      let m1 := Target_NvMemWrite s1.mem active aaddr
        (storage_header_bytes_alt crc32 size storage_id counter)
      let m2 := Target_NvMemWrite m1 active (aaddr + 8) (data.take size)
      (.OK, { s1 with
        mem := m2
        headers := fun j => if j = storage_id then some (active, aaddr) else s1.headers j
        pages_info := fun q => if q = active then
            { s1.pages_info q with
              address := aaddr + 8 + StorageFlash_GetSizeRoundedToFlashBlock size }
          else s1.pages_info q })

/-- StorageFlash_Read (Storage_Flash.c lines 690..708): plausibility
checks, unwritten slot, buffer size, CRC over the live record, then the
payload copy. -/
def StorageFlash_Read (s : FlashState) (storage_id bufsize : Nat) :
    Except error_code_t (Nat × List Nat) :=
  if s.is_initialized = false then .error .STORAGE_NOT_INITIALIZED
  else if NR_OF_STORAGES ≤ storage_id then .error .INDEX_OUT_OF_BOUNDARY
  else
    match s.headers storage_id with
    | none => .error .STORAGE_DATA_UNAVAILABLE
    | some (p, a) =>
      let hsize := flashRdLe16 s.mem p (a + 4)
      if hsize > bufsize then .error .BUFFER_TOO_SMALL
      else if flashRdLe32 s.mem p a ≠
          Crc_Crc32 (flashReadBytes s.mem p (a + 4) (4 + hsize)) 0 then
        .error .STORAGE_CRC_MISMATCH
      else .ok (hsize, flashReadBytes s.mem p (a + 8) hsize)

/-! ## Concrete example devices and states

Concrete flash images and EEPROM contents used to evaluate the model on
explicit inputs. Records are built with the same serialization the
backends use, so their checksums are valid by construction. -/

/-- A valid flash record for slot 0, generation 0, payload [1, 2, 3]. -/
def exRec123 : List Nat :=
  storage_header_bytes_alt
    (Crc_Crc32 [1, 2, 3] (Crc_Crc32 (storage_header_tail_alt 3 0 0) 0)) 3 0 0 ++ [1, 2, 3]

/-- Flash image: page 0 holds the single record exRec123, everything
else is erased (0xFF). -/
def exFlashMem1 : FlashMem :=
  fun p a => if p = 0 then exRec123.getD a 0xFF else 0xFF

/-- Flash backend state after initializing from exFlashMem1. -/
def exFlashState1 : FlashState :=
  (StorageFlash_Init exFlashMem1).2

/-- A valid flash record for slot 0 with generation `c` and payload
[1, 2, 3, 4]. -/
def exRec1234 (c : Nat) : List Nat :=
  storage_header_bytes_alt
    (Crc_Crc32 [1, 2, 3, 4] (Crc_Crc32 (storage_header_tail_alt 4 0 c) 0)) 4 0 c ++ [1, 2, 3, 4]

/-- A valid flash record for slot 0 with generation 6 and payload
[9, 9, 9, 9]. -/
def exRec9999 : List Nat :=
  storage_header_bytes_alt
    (Crc_Crc32 [9, 9, 9, 9] (Crc_Crc32 (storage_header_tail_alt 4 0 6) 0)) 4 0 6 ++ [9, 9, 9, 9]

/-- Flash image: page 0 holds slot 0's generation 5; page 1 holds
generations 6 and 7 (the live one, with payload [1, 2, 3, 4]). After
init page 0 has more remaining space and becomes active, so a write
must first migrate page 1's live record onto page 0. -/
def exFlashMem2 : FlashMem :=
  fun p a =>
    if p = 0 then (exRec1234 5).getD a 0xFF
    else if p = 1 then (exRec9999 ++ [0xFF, 0xFF, 0xFF, 0xFF] ++ exRec1234 7).getD a 0xFF
    else 0xFF

/-- Flash backend state after initializing from exFlashMem2. -/
def exFlashState2 : FlashState :=
  (StorageFlash_Init exFlashMem2).2

/-- Alternating-backend configuration: 256-byte I2C EEPROM, three
16-byte images per block (block 1 starts at 128). -/
def exAltCfg : AltCfg :=
  { eeprom_size := 256, est0 := 16, est1 := 16, est2 := 16 }

/-- A valid alternating-backend record for slot 0 with generation `c`
and one payload byte `b`. -/
def exAltRec (c b : Nat) : List Nat :=
  storage_header_bytes_alt
    (Crc_Crc32 [b] (Crc_Crc32 (storage_header_tail_alt 1 0 c) 0)) 1 0 c ++ [b]

/-- EEPROM content: slot 0's block 0 (address 0) holds generation 255
with payload [7]; slot 0's block 1 (address 128) holds generation 0
(= 255 + 1 for the uint8 counter) with payload [8]; block 1 is the
newer image, as produced by a write that wrapped the counter. -/
def exAltMem : Mem :=
  memWriteBytes (memWriteBytes (fun _ => 0) 0 (exAltRec 255 7)) 128 (exAltRec 0 8)

/-- Alternating backend state after initializing from exAltMem. -/
def exAltState : AltState :=
  (StorageEepromAlternate_Init exAltCfg exAltMem).2

/-- Linear-backend configuration with three 32-byte slots. -/
def exEepromCfg : EepromCfg :=
  { parameter_image_size := 32, application_image_size := 32,
    adaptive_data_image_size := 32 }

/-- A valid linear-backend record for slot 0 with payload
[10, 20, 30, 40]. -/
def exEepromRec : List Nat :=
  storage_header_bytes_eeprom
    (Crc_Crc32 [10, 20, 30, 40] (Crc_Crc32 (storage_header_tail_eeprom 4 0) 0)) 4 0
    ++ [10, 20, 30, 40]

/-- Initialized linear-backend state whose slot 0 holds exEepromRec. -/
def exEepromState : EepromState :=
  { is_initialized := true, fake_nv_memory := memWriteBytes (fun _ => 0) 0 exEepromRec }

/-- Linear-backend configuration whose layout fills the 256-byte fake
device exactly: one 256-byte slot. -/
def fullEepromCfg : EepromCfg :=
  { parameter_image_size := 256, application_image_size := 0,
    adaptive_data_image_size := 0 }

/-- State of the linear backend after a successful init on the exactly
full layout. -/
def fullEepromState : EepromState :=
  (StorageEeprom_Init fullEepromCfg
    { is_initialized := false, fake_nv_memory := fun _ => 0 }).2

/-- Flip bit `j` of the flash byte at page `p0`, address `a0`. -/
def flashFlipBit (fm : FlashMem) (p0 a0 j : Nat) : FlashMem :=
  fun p a => if p = p0 ∧ a = a0 then fm p a ^^^ 2 ^ j else fm p a

/-- A sane I2C outcome never reports a failure with the OK code: the
code distinguishes success from failure solely by the OK value, so a
failing transfer carries a non-OK error. -/
def nv_outcome.sane : nv_outcome → Prop
  | .ok => True
  | .fail _ e => e ≠ .OK

/-- A tracking map with slot 0 tracked at page 1, address 0 (the first
record of exFlashMem2's page 1, generation 6), as the init scan holds it
just before reaching the second record. -/
def exTrackedHeaders : Nat → Option (Nat × Nat) :=
  fun j => if j = 0 then some (1, 0) else none

/-- The write address StorageEepromAlternate_Write targets: the address
of the block that is not the slot's current block. -/
def altWriteAddr (s : AltState) (index : Nat) : Nat :=
  if ((s.entry index).current_block + 1) &&& 1 = 0 then (s.entry index).addr0
  else (s.entry index).addr1

/-! ## Helper lemmas -/

/-- Double xor with the same mask cancels (the seed/finalize xor pair of
Crc_Crc32). -/
theorem nat_xor_cancel_right (a b : Nat) : a ^^^ b ^^^ b = a := by
  rw [Nat.xor_assoc, Nat.xor_self, Nat.xor_zero]

/-- A vanishing xor means equality. -/
theorem nat_eq_of_xor_eq_zero {a b : Nat} (h : a ^^^ b = 0) : a = b := by
  have h2 := congrArg (fun t => t ^^^ b) h
  simpa [nat_xor_cancel_right] using h2

/-- Right shift distributes over xor. -/
theorem nat_shiftRight_xor (a b n : Nat) : (a ^^^ b) >>> n = (a >>> n) ^^^ (b >>> n) := by
  apply Nat.eq_of_testBit_eq
  intro i
  simp [Nat.testBit_shiftRight, Nat.testBit_xor]

/-- Crc_Crc32 chains over concatenation: the final xor of the first call
is undone by the seed xor of the second. -/
theorem crc32_chain (a b : List Nat) (s : Nat) :
    Crc_Crc32 (a ++ b) s = Crc_Crc32 b (Crc_Crc32 a s) := by
  unfold Crc_Crc32
  rw [List.foldl_append, nat_xor_cancel_right]

/-- The half-byte lookup table is GF(2)-linear on its 4-bit index. -/
theorem crc32_half_lookup_lin :
    ∀ i < 16, ∀ j < 16,
      crc32_half_lookup (i ^^^ j) = crc32_half_lookup i ^^^ crc32_half_lookup j := by
  decide

/-- Nonzero table entries occupy the top nibble: they are at least 2^28. -/
theorem crc32_half_lookup_ge (n : Nat) (hn : n < 16) (h0 : n ≠ 0) :
    2 ^ 28 ≤ crc32_half_lookup n := by
  interval_cases n <;> simp_all <;> norm_num [crc32_half_lookup]

/-- Table entries fit in 32 bits. -/
theorem crc32_half_lookup_lt (n : Nat) : crc32_half_lookup n < 2 ^ 32 := by
  unfold crc32_half_lookup
  split <;> norm_num

/-- Masking with 0xF yields a 4-bit value. -/
theorem and_fifteen_lt (x : Nat) : x &&& 0xF < 16 :=
  Nat.lt_succ_of_le (Nat.and_le_right)

/-- The half-byte CRC update is jointly GF(2)-linear in state and input. -/
theorem crcNib_lin (c d x y : Nat) :
    crcNib (c ^^^ d) (x ^^^ y) = crcNib c x ^^^ crcNib d y := by
  unfold crcNib
  have hidx : (c ^^^ d ^^^ (x ^^^ y)) &&& 0xF = ((c ^^^ x) &&& 0xF) ^^^ ((d ^^^ y) &&& 0xF) := by
    rw [← Nat.and_xor_distrib_right]
    congr 1
    rw [Nat.xor_assoc, Nat.xor_assoc]
    congr 1
    rw [← Nat.xor_assoc, ← Nat.xor_assoc, Nat.xor_comm d x]
  rw [hidx, crc32_half_lookup_lin _ (and_fifteen_lt _) _ (and_fifteen_lt _),
    nat_shiftRight_xor]
  rw [Nat.xor_assoc, Nat.xor_assoc]
  congr 1
  rw [← Nat.xor_assoc, ← Nat.xor_assoc,
    Nat.xor_comm (crc32_half_lookup ((c ^^^ x) &&& 0xF)) (d >>> 4)]

/-- The full byte step of Crc_Crc32 is jointly GF(2)-linear. -/
theorem crcByteStep_lin (c d b e : Nat) :
    crcByteStep (c ^^^ d) (b ^^^ e) = crcByteStep c b ^^^ crcByteStep d e := by
  unfold crcByteStep
  rw [crcNib_lin, nat_shiftRight_xor, crcNib_lin]

/-- Nibble update keeps the state inside 32 bits. -/
theorem crcNib_lt (c x : Nat) (hc : c < 2 ^ 32) : crcNib c x < 2 ^ 32 := by
  unfold crcNib
  have hsh : c >>> 4 < 2 ^ 32 := by
    rw [Nat.shiftRight_eq_div_pow]
    exact Nat.lt_of_le_of_lt (Nat.div_le_self _ _) hc
  exact Nat.xor_lt_two_pow hsh (crc32_half_lookup_lt _)

/-- Byte update keeps the state inside 32 bits. -/
theorem crcByteStep_lt (c b : Nat) (hc : c < 2 ^ 32) : crcByteStep c b < 2 ^ 32 :=
  crcNib_lt _ _ (crcNib_lt _ _ hc)

/-- Values below 16 are fixed by the 0xF mask. -/
theorem and_fifteen_self : ∀ x < 16, x &&& 0xF = x := by decide

/-- The zero-input nibble update vanishes only on the zero state: its
high part is below 2^28 while nonzero table entries are not. -/
theorem crcNib_zero_eq_zero (c : Nat) (hc : c < 2 ^ 32) (h : crcNib c 0 = 0) : c = 0 := by
  unfold crcNib at h
  have heq : c >>> 4 = crc32_half_lookup ((c ^^^ 0) &&& 0xF) := nat_eq_of_xor_eq_zero h
  rw [Nat.xor_zero] at heq
  have hshift : c >>> 4 < 2 ^ 28 := by
    rw [Nat.shiftRight_eq_div_pow]
    omega
  have hzero : c &&& 0xF = 0 := by
    by_contra hne
    have := crc32_half_lookup_ge (c &&& 0xF) (and_fifteen_lt c) hne
    omega
  rw [hzero] at heq
  have hc16 : c < 16 := by
    have : c >>> 4 = 0 := by simpa [crc32_half_lookup] using heq
    rw [Nat.shiftRight_eq_div_pow] at this
    omega
  have := and_fifteen_self c hc16
  omega

/-- The zero-input byte step is injective at zero within 32 bits. -/
theorem crcByteStep_zero_eq_zero (c : Nat) (hc : c < 2 ^ 32) (h : crcByteStep c 0 = 0) :
    c = 0 := by
  unfold crcByteStep at h
  have h1 : crcNib c 0 = 0 :=
    crcNib_zero_eq_zero _ (crcNib_lt _ _ hc) (by simpa using h)
  exact crcNib_zero_eq_zero _ hc h1

/-- A state difference `d` propagates through the CRC fold as the
zero-message iteration of the byte step, independent of the message. -/
theorem foldl_crcByteStep_xor (l : List Nat) :
    ∀ s d, l.foldl crcByteStep (s ^^^ d) = l.foldl crcByteStep s ^^^ crcZeroIter d l.length := by
  induction l with
  | nil => intro s d; simp [crcZeroIter]
  | cons b l ih =>
    intro s d
    have hstep : crcByteStep (s ^^^ d) b = crcByteStep s b ^^^ crcByteStep d 0 := by
      have := crcByteStep_lin s d b 0
      simpa using this
    simp only [List.foldl_cons, List.length_cons, hstep]
    exact ih (crcByteStep s b) (crcByteStep d 0)

/-- A nonzero 32-bit state difference stays nonzero and 32-bit under any
number of zero-message byte steps. -/
theorem crcZeroIter_ne_zero (n : Nat) :
    ∀ d, d ≠ 0 → d < 2 ^ 32 → crcZeroIter d n ≠ 0 ∧ crcZeroIter d n < 2 ^ 32 := by
  induction n with
  | zero => intro d h0 hlt; exact ⟨h0, hlt⟩
  | succ n ih =>
    intro d h0 hlt
    have hne : crcByteStep d 0 ≠ 0 := fun h => h0 (crcByteStep_zero_eq_zero d hlt h)
    exact ih _ hne (crcByteStep_lt _ _ hlt)

/-- The state response of a single flipped bit within one byte is a
nonzero 32-bit value. -/
theorem crc_flip_delta : ∀ j < 8, crcByteStep 0 (2 ^ j) ≠ 0 ∧ crcByteStep 0 (2 ^ j) < 2 ^ 32 := by
  decide

/-- Core tamper-detection fact about Crc_Crc32: flipping one bit of one
message byte changes the checksum, whatever the seed and the rest of
the message. -/
theorem crc32_flip_bit_ne (pre suf : List Nat) (b j seed : Nat) (hj : j < 8) :
    Crc_Crc32 (pre ++ (b ^^^ 2 ^ j) :: suf) seed ≠ Crc_Crc32 (pre ++ b :: suf) seed := by
  unfold Crc_Crc32
  rw [List.foldl_append, List.foldl_append, List.foldl_cons, List.foldl_cons]
  set s1 := pre.foldl crcByteStep (seed ^^^ 0xFFFFFFFF) with hs1
  have hstep : crcByteStep s1 (b ^^^ 2 ^ j) = crcByteStep s1 b ^^^ crcByteStep 0 (2 ^ j) := by
    have := crcByteStep_lin s1 0 b (2 ^ j)
    simpa using this
  rw [hstep, foldl_crcByteStep_xor]
  intro hcontra
  have h1 : suf.foldl crcByteStep (crcByteStep s1 b) ^^^ crcZeroIter (crcByteStep 0 (2 ^ j)) suf.length
      = suf.foldl crcByteStep (crcByteStep s1 b) := by
    have h2 := congrArg (fun t => t ^^^ 0xFFFFFFFF) hcontra
    simpa [nat_xor_cancel_right] using h2
  have hδ := crcZeroIter_ne_zero suf.length (crcByteStep 0 (2 ^ j))
    (crc_flip_delta j hj).1 (crc_flip_delta j hj).2
  have h5 := congrArg (fun t => suf.foldl crcByteStep (crcByteStep s1 b) ^^^ t) h1
  simp only [← Nat.xor_assoc, Nat.xor_self, Nat.zero_xor] at h5
  exact hδ.1 h5

/-- Bytes outside the written range are untouched by memWriteBytes. -/
theorem memWriteBytes_outside (m : Mem) (addr : Nat) (data : List Nat) (a : Nat)
    (h : a < addr ∨ addr + data.length ≤ a) : memWriteBytes m addr data a = m a := by
  have hc : ¬(addr ≤ a ∧ a < addr + data.length) := by omega
  simp [memWriteBytes, hc]

/-- Reading a range only depends on the bytes of that range. -/
theorem memReadBytes_congr {m1 m2 : Mem} (addr len : Nat)
    (h : ∀ i, i < len → m1 (addr + i) = m2 (addr + i)) :
    memReadBytes m1 addr len = memReadBytes m2 addr len := by
  unfold memReadBytes
  exact List.map_congr_left (fun i hi => h i (List.mem_range.mp hi))

/-- Reading back a freshly written range returns the written bytes. -/
theorem memReadBytes_writeBack (m : Mem) (addr : Nat) (data : List Nat) :
    memReadBytes (memWriteBytes m addr data) addr data.length = data := by
  apply List.ext_getElem
  · simp [memReadBytes]
  · intro i h1 h2
    simp only [memReadBytes, List.getElem_map, List.getElem_range, memWriteBytes]
    rw [if_pos ⟨Nat.le_add_right _ _, by simp [memReadBytes] at h1; omega⟩,
      Nat.add_sub_cancel_left]
    exact List.getD_eq_getElem data 0 h2

/-- Splitting a mapped range at one differing position: the common
prefix and suffix of the two byte sequences, around the one byte where
the generating functions disagree. -/
theorem rangeMap_flip_split (n k : Nat) (f f' : Nat → Nat) (hk : k < n)
    (hagree : ∀ i, i ≠ k → f' i = f i) :
    (List.range n).map f
        = ((List.range n).map f).take k ++ f k :: ((List.range n).map f).drop (k + 1) ∧
      (List.range n).map f'
        = ((List.range n).map f).take k ++ f' k :: ((List.range n).map f).drop (k + 1) := by
  have hlen : ((List.range n).map f).length = n := by simp
  have hlen' : ((List.range n).map f').length = n := by simp
  have hk1 : k < ((List.range n).map f).length := by omega
  have hk2 : k < ((List.range n).map f').length := by omega
  have hfst : (List.range n).map f
      = ((List.range n).map f).take k ++ f k :: ((List.range n).map f).drop (k + 1) := by
    conv_lhs => rw [← List.take_append_drop k ((List.range n).map f)]
    rw [List.drop_eq_getElem_cons hk1]
    simp [List.getElem_map, List.getElem_range]
  have htake : ((List.range n).map f').take k = ((List.range n).map f).take k := by
    apply List.ext_getElem
    · simp
    · intro i ha hb
      have hik : i < k := by simp [List.length_take] at ha; omega
      rw [List.getElem_take, List.getElem_take]
      simp only [List.getElem_map, List.getElem_range]
      exact hagree i (by omega)
  have hdrop : ((List.range n).map f').drop (k + 1) = ((List.range n).map f).drop (k + 1) := by
    apply List.ext_getElem
    · simp
    · intro i ha hb
      rw [List.getElem_drop, List.getElem_drop]
      simp only [List.getElem_map, List.getElem_range]
      exact hagree (k + 1 + i) (by omega)
  have hsnd : (List.range n).map f'
      = ((List.range n).map f).take k ++ f' k :: ((List.range n).map f).drop (k + 1) := by
    conv_lhs => rw [← List.take_append_drop k ((List.range n).map f')]
    rw [List.drop_eq_getElem_cons hk2]
    rw [htake, hdrop]
    simp [List.getElem_map, List.getElem_range]
  exact ⟨hfst, hsnd⟩

/-! ## Claim theorems -/

/-- C9: CRC chaining homomorphism: for all byte sequences a, b and every
seed s, Crc_Crc32 (a ++ b) s = Crc_Crc32 b (Crc_Crc32 a s); in
particular the checksum the flash write path computes in two chained
calls (header tail, then payload) equals the checksum the validation
path computes in one call over the contiguous header-tail-plus-payload
bytes. -/
theorem C9_crc32_chaining :
    (∀ (a b : List Nat) (s : Nat), Crc_Crc32 (a ++ b) s = Crc_Crc32 b (Crc_Crc32 a s)) ∧
    (∀ (size index counter : Nat) (payload : List Nat),
      Crc_Crc32 (storage_header_tail_alt size index counter ++ payload) 0 =
        Crc_Crc32 payload (Crc_Crc32 (storage_header_tail_alt size index counter) 0)) :=
  ⟨crc32_chain, fun size index counter payload =>
    crc32_chain (storage_header_tail_alt size index counter) payload 0⟩

/-- C10: StorageEepromAlternate_Init always returns OK and marks the
module initialized, whatever the configuration and whatever the EEPROM
content: it has no runtime error path (layout fit is a compile-time
check); per-block problems only land in the entries' error fields. -/
theorem C10_alternate_init_always_ok (cfg : AltCfg) (mem : Mem) :
    (StorageEepromAlternate_Init cfg mem).1 = .OK ∧
    (StorageEepromAlternate_Init cfg mem).2.is_initialized = true :=
  ⟨rfl, rfl⟩

/-- C1 (failing input): on a flash holding a live 3-byte record [1,2,3]
for slot 0, StorageFlash_Write of the 2-byte prefix [1,2] returns OK
(the memcmp skip compares only `size` bytes and ignores the stored
record's size), yet the subsequent read still returns the old 3-byte
payload, not the 2 written bytes: the claimed round-trip fails. -/
theorem C1_flash_prefix_write_round_trip_fails :
    StorageFlash_Read exFlashState1 0 100 = .ok (3, [1, 2, 3]) ∧
    (StorageFlash_Write exFlashState1 0 [1, 2] 2).1 = .OK ∧
    StorageFlash_Read (StorageFlash_Write exFlashState1 0 [1, 2] 2).2 0 100
      = .ok (3, [1, 2, 3]) := by
  decide

/-- C5 (failing input): both blocks of slot 0 validate; block 0 holds
generation 255, block 1 holds generation 0 = 255 + 1 for the uint8
counter (produced by the write path's wrapping counter). The init
comparison 1 == (header.counter - entry.counter) is computed on
int-promoted operands (0 - 255 = -255), so the wrap is not recognized:
init keeps block 0 - the older image - as current, and a read returns
the stale payload [7] instead of block 1's [8]. -/
theorem C5_init_wrap_selects_stale_block :
    (exAltState.entry 0).error0 = .OK ∧
    (exAltState.entry 0).error1 = .OK ∧
    exAltMem 7 = 255 ∧
    exAltMem 135 = 0 ∧
    (exAltState.entry 0).current_block = 0 ∧
    (exAltState.entry 0).counter = 255 ∧
    StorageEepromAlternate_Read exAltState 0 8 = .ok (1, [7]) := by
  decide

/-- C7 (failing input): a layout of sizes 256/0/0 passes init on the
256-byte fake device, but a write of size = reserved_size - header_size
= 248 to slot 0 is rejected by the fake NvMem guard (addr + size) >=
256 with NOT_ACCESSIBLE instead of returning OK; the too-big half of
the boundary (249 gives STORAGE_DATA_TOO_BIG) does hold. -/
theorem C7_capacity_boundary_eval :
    (StorageEeprom_Init fullEepromCfg
      { is_initialized := false, fake_nv_memory := fun _ => 0 }).1 = .OK ∧
    (StorageEeprom_Write fullEepromCfg fullEepromState 0 (List.replicate 248 7) 248).1
      = .NOT_ACCESSIBLE ∧
    (StorageEeprom_Write fullEepromCfg fullEepromState 0 (List.replicate 249 7) 249).1
      = .STORAGE_DATA_TOO_BIG := by
  decide

/-- C3 (counterexample): before the write, slot 0's live record sits on
page 1 with generation 7, size 4 and payload [1,2,3,4], and page 0 (the
active page) has next-free address 16. Writing the byte-identical
payload [1,2,3,4] returns OK without a physical append of the new data,
but PrepareAffectedPages first migrates the live record onto the active
page: the slot's generation advances to 8 and the active page's
next-free address grows to 32 - contradicting the claim that such a
write never advances the counter nor consumes page space. -/
theorem C3_identical_write_not_free_of_side_effects :
    exFlashState2.headers 0 = some (1, 16) ∧
    exFlashState2.mem 1 23 = 7 ∧
    flashRdLe16 exFlashState2.mem 1 20 = 4 ∧
    flashReadBytes exFlashState2.mem 1 24 4 = [1, 2, 3, 4] ∧
    exFlashState2.active_page = 0 ∧
    (exFlashState2.pages_info 0).address = 16 ∧
    (StorageFlash_Write exFlashState2 0 [1, 2, 3, 4] 4).1 = .OK ∧
    (StorageFlash_Write exFlashState2 0 [1, 2, 3, 4] 4).2.headers 0 = some (0, 16) ∧
    (StorageFlash_Write exFlashState2 0 [1, 2, 3, 4] 4).2.mem 0 23 = 8 ∧
    ((StorageFlash_Write exFlashState2 0 [1, 2, 3, 4] 4).2.pages_info 0).address = 32 := by
  decide

/-- C6 (counterexample): slot 0 of the linear backend holds a readable
record; flipping bit 1 of the header's index byte (address 6, outside
the checksum field) makes the next read fail with
STORAGE_INDEX_MISMATCH, not the claimed STORAGE_CRC_MISMATCH. -/
theorem C6_header_flip_gives_index_mismatch :
    StorageEeprom_Read exEepromCfg exEepromState 0 16 = .ok (4, [10, 20, 30, 40]) ∧
    StorageEeprom_Read exEepromCfg
      { exEepromState with fake_nv_memory := memFlipBit exEepromState.fake_nv_memory 6 1 }
      0 16 = .error .STORAGE_INDEX_MISMATCH := by
  decide

/-- The C uint8 difference (256 + a - b) % 256 lies in the window 1..127
exactly when the mathematical difference a - b taken modulo 256 does,
whenever b is a byte value. -/
theorem u8_diff_window_iff (a b : Nat) (hb : b < 256) :
    (1 ≤ (256 + a - b) % 256 ∧ (256 + a - b) % 256 ≤ 127) ↔
      (1 ≤ ((a : Int) - (b : Int)) % 256 ∧ ((a : Int) - (b : Int)) % 256 ≤ 127) := by
  omega

/-- C4: during StorageFlash_Init's scan, a later valid record for a slot
replaces the tracked record exactly when the difference of the uint8
generation counters (new minus tracked) taken modulo 256 lies in
1..127; outside that window (0 and 128..255) the tracking map is left
unchanged, so counter wraparound is tolerated. -/
theorem C4_flash_init_newest_selection
    (fm : FlashMem) (headers : Nat → Option (Nat × Nat)) (page addr op oa : Nat)
    (hvalid : fm page (addr + 6) < NR_OF_STORAGES ∧
      flashRdLe32 fm page addr =
        Crc_Crc32 (flashReadBytes fm page (addr + 4) (4 + flashRdLe16 fm page (addr + 4))) 0)
    (htracked : headers (fm page (addr + 6)) = some (op, oa))
    (hnewloc : (op, oa) ≠ (page, addr))
    (hbyte : fm op (oa + 7) < 256) :
    (flashTrackRecord fm headers page addr (fm page (addr + 6)) = some (page, addr) ↔
      1 ≤ ((fm page (addr + 7) : Int) - (fm op (oa + 7) : Int)) % 256 ∧
        ((fm page (addr + 7) : Int) - (fm op (oa + 7) : Int)) % 256 ≤ 127) ∧
    (¬(1 ≤ ((fm page (addr + 7) : Int) - (fm op (oa + 7) : Int)) % 256 ∧
        ((fm page (addr + 7) : Int) - (fm op (oa + 7) : Int)) % 256 ≤ 127) →
      flashTrackRecord fm headers page addr = headers) := by
  have hwin := u8_diff_window_iff (fm page (addr + 7)) (fm op (oa + 7)) hbyte
  simp only [flashTrackRecord, if_pos hvalid, htracked]
  by_cases hw : 0 < (256 + fm page (addr + 7) - fm op (oa + 7)) % 256 ∧
      (256 + fm page (addr + 7) - fm op (oa + 7)) % 256 ≤ 127
  · rw [if_pos hw]
    constructor
    · simp only [if_pos rfl]
      exact iff_of_true rfl (hwin.mp hw)
    · intro hneg
      exact absurd (hwin.mp hw) hneg
  · rw [if_neg hw]
    constructor
    · rw [htracked]
      constructor
      · intro heq
        exact absurd (by injection heq) hnewloc
      · intro hright
        exact absurd (hwin.mpr hright) hw
    · intro _
      rfl

/-- C4 witness: in exFlashMem2, with slot 0 tracked at page 1 address 0
(generation 6), the valid record at page 1 address 16 (generation 7,
difference 1) replaces the tracked record. -/
theorem C4_flash_init_newest_selection_witness :
    flashTrackRecord exFlashMem2 exTrackedHeaders 1 16 (exFlashMem2 1 (16 + 6)) = some (1, 16) :=
  (C4_flash_init_newest_selection exFlashMem2 exTrackedHeaders 1 16 1 0
    (by decide) (by decide) (by decide) (by decide)).1.mpr (by decide)

/-- When the active page is valid and the next page is empty and valid
and the pending record fits, StorageFlash_PrepareAffectedPages performs
no maintenance at all. -/
theorem flashPrepare_noop (s : FlashState) (size : Nat)
    (hactive : (s.pages_info s.active_page).status = .PAGE_IS_VALID)
    (hnext_addr : (s.pages_info (flashNextPage s.active_page)).address = 0)
    (hnext_stat : (s.pages_info (flashNextPage s.active_page)).status = .PAGE_IS_VALID)
    (hfit : (s.pages_info s.active_page).address + 8 + size ≤ NV_MEM_PAGE_INFO_ADDR) :
    StorageFlash_PrepareAffectedPages s size = s := by
  have h1 : ¬((s.pages_info s.active_page).status = page_state_t.PAGE_IS_CORRUPTED) := by
    rw [hactive]
    decide
  have h2 : ¬((s.pages_info (flashNextPage s.active_page)).address ≠ 0 ∨
      (s.pages_info (flashNextPage s.active_page)).status ≠ page_state_t.PAGE_IS_VALID) := by
    rw [hnext_addr, hnext_stat]
    simp
  have h3 : ¬(NV_MEM_PAGE_INFO_ADDR < (s.pages_info s.active_page).address + 8 + size) := by
    omega
  simp [StorageFlash_PrepareAffectedPages, h1, h2, h3]

/-- C3 (amended): if PrepareAffectedPages has no maintenance to do (the
active page is valid, the next page is empty and valid, and the record
fits in the active page's remaining space), then a StorageFlash_Write
whose payload is byte-identical to the slot's live record (same size,
same bytes) returns OK and leaves the entire state - flash content,
tracked records, generation counters and the active page's next-free
address - unchanged: the physical append is skipped. -/
theorem C3_flash_identical_write_skips_append
    (s : FlashState) (storage_id size : Nat) (data : List Nat) (p a : Nat)
    (hinit : s.is_initialized = true)
    (hid : storage_id < NR_OF_STORAGES)
    (hsz : 8 + size ≤ NV_MEM_PAGE_INFO_ADDR)
    (hlen : data.length = size)
    (hactive : (s.pages_info s.active_page).status = .PAGE_IS_VALID)
    (hnext_addr : (s.pages_info (flashNextPage s.active_page)).address = 0)
    (hnext_stat : (s.pages_info (flashNextPage s.active_page)).status = .PAGE_IS_VALID)
    (hfit : (s.pages_info s.active_page).address + 8 + size ≤ NV_MEM_PAGE_INFO_ADDR)
    (hlive : s.headers storage_id = some (p, a))
    (hsamesize : flashRdLe16 s.mem p (a + 4) = size)
    (hsame : flashReadBytes s.mem p (a + 8) size = data) :
    StorageFlash_Write s storage_id data size = (.OK, s) := by
  unfold StorageFlash_Write
  rw [if_neg (by rw [hinit]; decide)]
  rw [if_neg (by omega)]
  rw [if_neg (by omega)]
  rw [if_neg (by rw [hactive]; decide)]
  rw [flashPrepare_noop s size hactive hnext_addr hnext_stat hfit]
  have htake : data.take size = data := by
    rw [← hlen]
    exact List.take_length data
  simp [hlive, htake, hsame]

/-- C3 witness: on the concrete one-record flash image, rewriting the
identical payload [1,2,3] returns OK with a completely unchanged
state. -/
theorem C3_flash_identical_write_skips_append_witness :
    StorageFlash_Write exFlashState1 0 [1, 2, 3] 3 = (.OK, exFlashState1) :=
  C3_flash_identical_write_skips_append exFlashState1 0 3 [1, 2, 3] 0 0
    (by decide) (by decide) (by decide) (by decide) (by decide) (by decide)
    (by decide) (by decide) (by decide) (by decide) (by decide)

/-- The serialized alternating/flash header is 8 bytes. -/
theorem storage_header_bytes_alt_length (c sz i ct : Nat) :
    (storage_header_bytes_alt c sz i ct).length = 8 := by
  simp [storage_header_bytes_alt, storage_header_tail_alt, le32, le16]

/-- A single I2C write transaction never modifies a byte outside its
target range, whatever its outcome. -/
theorem i2c_write_mem_outside (cfg : AltCfg) (o : nv_outcome) (m : Mem) (addr : Nat)
    (data : List Nat) (a : Nat) (h : a < addr ∨ addr + data.length ≤ a) :
    (StorageI2cEeprom_NvMemWrite cfg o m addr data).2 a = m a := by
  unfold StorageI2cEeprom_NvMemWrite
  split
  · rfl
  · cases o with
    | ok => exact memWriteBytes_outside m addr data a h
    | fail k e =>
      apply memWriteBytes_outside
      have hk : (data.take k).length ≤ data.length := by
        rw [List.length_take]
        omega
      omega

/-- StorageEepromAlternate_Write never modifies a byte outside the
region of 8 + size bytes starting at the non-current block's address,
whatever the outcomes of the two I2C transfers. -/
theorem alt_write_mem_outside
    (cfg : AltCfg) (o1 o2 : nv_outcome) (s : AltState) (index size : Nat)
    (data : List Nat) (a : Nat)
    (h : a < altWriteAddr s index ∨ altWriteAddr s index + 8 + size ≤ a) :
    (StorageEepromAlternate_Write cfg o1 o2 s index data size).2.mem a = s.mem a := by
  unfold altWriteAddr at h
  have hpl : (data.take size).length ≤ size := by
    rw [List.length_take]
    omega
  simp only [StorageEepromAlternate_Write]
  set wa := (if ((s.entry index).current_block + 1) &&& 1 = 0 then (s.entry index).addr0
    else (s.entry index).addr1) with hwa
  split_ifs with g1 g2 g3 g4 g5
  · rfl
  · rfl
  · rfl
  · exact i2c_write_mem_outside _ _ _ _ _ _
      (by rw [storage_header_bytes_alt_length]; omega)
  · exact Eq.trans
      (i2c_write_mem_outside _ _ _ _ _ _ (by omega))
      (i2c_write_mem_outside _ _ _ _ _ _
        (by rw [storage_header_bytes_alt_length]; omega))
  · exact Eq.trans
      (i2c_write_mem_outside _ _ _ _ _ _ (by omega))
      (i2c_write_mem_outside _ _ _ _ _ _
        (by rw [storage_header_bytes_alt_length]; omega))

/-- A failing I2C transfer never reports OK (given a sane outcome). -/
theorem i2c_write_fail_result (cfg : AltCfg) (k : Nat) (e : error_code_t) (m : Mem)
    (addr : Nat) (d : List Nat) (he : e ≠ .OK) :
    (StorageI2cEeprom_NvMemWrite cfg (.fail k e) m addr d).1 ≠ .OK := by
  unfold StorageI2cEeprom_NvMemWrite
  split
  · exact fun h => nomatch h
  · exact he

/-- A sane I2C transfer reporting OK performed the full write. -/
theorem i2c_write_ok_shape (cfg : AltCfg) (o : nv_outcome) (m : Mem) (addr : Nat)
    (d : List Nat) (hs : o.sane)
    (hok : (StorageI2cEeprom_NvMemWrite cfg o m addr d).1 = .OK) :
    StorageI2cEeprom_NvMemWrite cfg o m addr d = (.OK, memWriteBytes m addr d) := by
  cases o with
  | fail k e => exact absurd hok (i2c_write_fail_result cfg k e m addr d hs)
  | ok =>
    unfold StorageI2cEeprom_NvMemWrite at hok ⊢
    by_cases hg : addr + d.length ≥ cfg.eeprom_size
    · rw [if_pos hg] at hok
      simp at hok
    · rw [if_neg hg]

/-- Whenever StorageEepromAlternate_Write does not return OK, the
per-slot RAM entries are untouched. -/
theorem alt_write_entry_unchanged_of_not_ok
    (cfg : AltCfg) (o1 o2 : nv_outcome) (s : AltState) (index size : Nat) (data : List Nat)
    (h : (StorageEepromAlternate_Write cfg o1 o2 s index data size).1 ≠ .OK) :
    (StorageEepromAlternate_Write cfg o1 o2 s index data size).2.entry = s.entry := by
  revert h
  simp only [StorageEepromAlternate_Write]
  split_ifs <;> intro h <;> first | rfl | exact absurd rfl h

/-- If one of the two physical writes fails (sane outcome), the write
call does not return OK. -/
theorem alt_write_fail_result
    (cfg : AltCfg) (o1 o2 : nv_outcome) (s : AltState) (index size : Nat)
    (data : List Nat) (k : Nat) (e : error_code_t)
    (he : e ≠ .OK)
    (hfail : o1 = .fail k e ∨ (o1 = .ok ∧ o2 = .fail k e)) :
    (StorageEepromAlternate_Write cfg o1 o2 s index data size).1 ≠ .OK := by
  simp only [StorageEepromAlternate_Write]
  set wa := (if ((s.entry index).current_block + 1) &&& 1 = 0 then (s.entry index).addr0
    else (s.entry index).addr1) with hwa
  split_ifs with g1 g2 g3 g4 g5
  · exact fun h => nomatch h
  · exact fun h => nomatch h
  · exact fun h => nomatch h
  · exact g4
  · exact g5
  · rcases hfail with h1 | ⟨h1, h2⟩
    · subst h1
      exact absurd (not_ne_iff.mp g4) (i2c_write_fail_result _ _ _ _ _ _ he)
    · subst h1
      subst h2
      exact absurd (not_ne_iff.mp g5) (i2c_write_fail_result _ _ _ _ _ _ he)

/-- Reading back a freshly written range of the declared length. -/
theorem memReadBytes_writeBack_len (m : Mem) (addr len : Nat) (data : List Nat)
    (hl : data.length = len) :
    memReadBytes (memWriteBytes m addr data) addr len = data := by
  subst hl
  exact memReadBytes_writeBack m addr data

/-- A StorageEepromAlternate_Write that returns OK (with sane outcomes
and passing plausibility checks) wrote the full header and payload to
the non-current block and flipped the slot's entry. -/
theorem alt_write_success_shape
    (cfg : AltCfg) (o1 o2 : nv_outcome) (s : AltState) (index size : Nat) (data : List Nat)
    (hinit : s.is_initialized = true)
    (hi : index < NR_OF_STORAGES)
    (hsz : ¬(size + 8 > cfg.est index))
    (ho1 : o1.sane) (ho2 : o2.sane)
    (hOK : (StorageEepromAlternate_Write cfg o1 o2 s index data size).1 = .OK) :
    StorageEepromAlternate_Write cfg o1 o2 s index data size =
      (.OK, { s with
        mem := memWriteBytes
          (memWriteBytes s.mem (altWriteAddr s index)
            (storage_header_bytes_alt
              (Crc_Crc32 (data.take size)
                (Crc_Crc32 (storage_header_tail_alt size index
                  (((s.entry index).counter + 1) % 256)) 0))
              size index (((s.entry index).counter + 1) % 256)))
          (altWriteAddr s index + 8) (data.take size)
        entry := fun j =>
          if j = index then
            { s.entry index with
              counter := ((s.entry index).counter + 1) % 256,
              current_block := ((s.entry index).current_block + 1) &&& 1 }
          else s.entry j }) := by
  have g1 : ¬(s.is_initialized = false) := by
    rw [hinit]
    decide
  have g2 : ¬(NR_OF_STORAGES ≤ index) := by omega
  revert hOK
  simp only [StorageEepromAlternate_Write, altWriteAddr]
  rw [if_neg g1, if_neg g2, if_neg hsz]
  set wa := (if ((s.entry index).current_block + 1) &&& 1 = 0 then (s.entry index).addr0
    else (s.entry index).addr1) with hwa
  split_ifs with g4 g5
  · intro h
    exact absurd h g4
  · intro h
    exact absurd h g5
  · intro _
    have hw1 := i2c_write_ok_shape cfg o1 s.mem wa _ ho1 (not_ne_iff.mp g4)
    rw [hw1] at g5 ⊢
    have hw2 := i2c_write_ok_shape cfg o2 _ _ _ ho2 (not_ne_iff.mp g5)
    rw [hw2]

/-- C8: StorageEepromAlternate_Write only ever touches the 8 + size
bytes at the non-current block's address (which, in a state laid out by
init, is the other block of the slot); when it returns OK, that region
holds the serialized header - with generation counter equal to the
slot's counter plus one (uint8) - followed by the payload, and the
slot's in-RAM counter and current-block marker are flipped; when it
does not return OK (in particular when either physical write failed),
the in-RAM entries are untouched: the flip happens only after both
physical writes succeeded. -/
theorem C8_alternating_write_placement
    (cfg : AltCfg) (o1 o2 : nv_outcome) (s : AltState) (index size : Nat) (data : List Nat)
    (hinit : s.is_initialized = true)
    (hi : index < NR_OF_STORAGES)
    (hsz : size + 8 ≤ cfg.est index)
    (hlen : data.length = size)
    (ho1 : o1.sane) (ho2 : o2.sane)
    (haddr0 : (s.entry index).addr0 = altBlockAddr cfg 0 index)
    (haddr1 : (s.entry index).addr1 = altBlockAddr cfg 1 index) :
    altWriteAddr s index
      = altBlockAddr cfg (((s.entry index).current_block + 1) &&& 1) index ∧
    (∀ a, a < altWriteAddr s index ∨ altWriteAddr s index + 8 + size ≤ a →
      (StorageEepromAlternate_Write cfg o1 o2 s index data size).2.mem a = s.mem a) ∧
    ((StorageEepromAlternate_Write cfg o1 o2 s index data size).1 = .OK →
      memReadBytes (StorageEepromAlternate_Write cfg o1 o2 s index data size).2.mem
          (altWriteAddr s index) 8 =
        storage_header_bytes_alt
          (Crc_Crc32 data (Crc_Crc32 (storage_header_tail_alt size index
            (((s.entry index).counter + 1) % 256)) 0))
          size index (((s.entry index).counter + 1) % 256) ∧
      memReadBytes (StorageEepromAlternate_Write cfg o1 o2 s index data size).2.mem
          (altWriteAddr s index + 8) size = data ∧
      (StorageEepromAlternate_Write cfg o1 o2 s index data size).2.entry index =
        { s.entry index with
          counter := ((s.entry index).counter + 1) % 256,
          current_block := ((s.entry index).current_block + 1) &&& 1 } ∧
      ∀ j, j ≠ index →
        (StorageEepromAlternate_Write cfg o1 o2 s index data size).2.entry j = s.entry j) ∧
    ((StorageEepromAlternate_Write cfg o1 o2 s index data size).1 ≠ .OK →
      (StorageEepromAlternate_Write cfg o1 o2 s index data size).2.entry = s.entry) := by
  have htake : data.take size = data := by
    rw [← hlen]
    exact List.take_length data
  have hwaeq : altWriteAddr s index
      = altBlockAddr cfg (((s.entry index).current_block + 1) &&& 1) index := by
    unfold altWriteAddr
    by_cases h : ((s.entry index).current_block + 1) &&& 1 = 0
    · rw [if_pos h, h, haddr0]
    · have h2 : ((s.entry index).current_block + 1) &&& 1 ≤ 1 := Nat.and_le_right
      have h1 : ((s.entry index).current_block + 1) &&& 1 = 1 := by omega
      rw [if_neg h, h1, haddr1]
  refine ⟨hwaeq, ?_, ?_, ?_⟩
  · intro a ha
    exact alt_write_mem_outside cfg o1 o2 s index size data a ha
  · intro hOK
    have hsh := alt_write_success_shape cfg o1 o2 s index size data hinit hi
      (by omega) ho1 ho2 hOK
    rw [htake] at hsh
    rw [hsh]
    refine ⟨?_, ?_, ?_, ?_⟩
    · have hstep1 : memReadBytes
          (memWriteBytes
            (memWriteBytes s.mem (altWriteAddr s index)
              (storage_header_bytes_alt
                (Crc_Crc32 data (Crc_Crc32 (storage_header_tail_alt size index
                  (((s.entry index).counter + 1) % 256)) 0))
                size index (((s.entry index).counter + 1) % 256)))
            (altWriteAddr s index + 8) data)
          (altWriteAddr s index) 8
        = memReadBytes
            (memWriteBytes s.mem (altWriteAddr s index)
              (storage_header_bytes_alt
                (Crc_Crc32 data (Crc_Crc32 (storage_header_tail_alt size index
                  (((s.entry index).counter + 1) % 256)) 0))
                size index (((s.entry index).counter + 1) % 256)))
            (altWriteAddr s index) 8 := by
        apply memReadBytes_congr
        intro i hi8
        apply memWriteBytes_outside
        left
        omega
      exact hstep1.trans (memReadBytes_writeBack_len _ _ _ _
        (storage_header_bytes_alt_length _ _ _ _))
    · exact memReadBytes_writeBack_len _ _ _ _ hlen
    · simp
    · intro j hj
      simp [hj]
  · intro hne
    exact alt_write_entry_unchanged_of_not_ok cfg o1 o2 s index size data hne

/-- C8 witness: on the concrete initialized state (current block 0,
counter 255), a successful write of [5,6] to slot 0 lands in block 1
(address 128), wraps the counter to 0 and flips the current block. -/
theorem C8_alternating_write_placement_witness :
    (StorageEepromAlternate_Write exAltCfg .ok .ok exAltState 0 [5, 6] 2).1 = .OK ∧
    (StorageEepromAlternate_Write exAltCfg .ok .ok exAltState 0 [5, 6] 2).2.entry 0 =
      { exAltState.entry 0 with
        counter := ((exAltState.entry 0).counter + 1) % 256,
        current_block := ((exAltState.entry 0).current_block + 1) &&& 1 } ∧
    memReadBytes (StorageEepromAlternate_Write exAltCfg .ok .ok exAltState 0 [5, 6] 2).2.mem
      (altWriteAddr exAltState 0 + 8) 2 = [5, 6] := by
  have h := C8_alternating_write_placement exAltCfg .ok .ok exAltState 0 2 [5, 6]
    (by decide) (by decide) (by decide) (by decide) trivial trivial (by decide) (by decide)
  have hOK : (StorageEepromAlternate_Write exAltCfg .ok .ok exAltState 0 [5, 6] 2).1 = .OK := by
    decide
  exact ⟨hOK, (h.2.2.1 hOK).2.2.1, (h.2.2.1 hOK).2.1⟩

/-- StorageEepromAlternate_Write never changes the initialized flag. -/
theorem alt_write_is_initialized
    (cfg : AltCfg) (o1 o2 : nv_outcome) (s : AltState) (index size : Nat) (data : List Nat) :
    (StorageEepromAlternate_Write cfg o1 o2 s index data size).2.is_initialized
      = s.is_initialized := by
  simp only [StorageEepromAlternate_Write]
  split_ifs <;> rfl

/-- ReadMinimalCheck only depends on the entries and on the bytes of the
accessed block region (header plus the stored payload length). -/
theorem alt_rmc_congr (s1 s2 : AltState) (index block bufsize : Nat)
    (hent : s1.entry = s2.entry)
    (hmem : ∀ i,
      i < 8 + rdLe16 s2.mem
        ((if block = 0 then (s2.entry index).addr0 else (s2.entry index).addr1) + 4) →
      s1.mem ((if block = 0 then (s2.entry index).addr0 else (s2.entry index).addr1) + i)
        = s2.mem ((if block = 0 then (s2.entry index).addr0 else (s2.entry index).addr1) + i)) :
    StorageEepromAlternate_ReadMinimalCheck s1 index block bufsize
      = StorageEepromAlternate_ReadMinimalCheck s2 index block bufsize := by
  unfold StorageEepromAlternate_ReadMinimalCheck
  rw [hent]
  set a := (if block = 0 then (s2.entry index).addr0 else (s2.entry index).addr1) with ha
  have h16 : rdLe16 s1.mem (a + 4) = rdLe16 s2.mem (a + 4) := by
    unfold rdLe16
    rw [show a + 4 + 1 = a + 5 by omega]
    rw [hmem 4 (by omega), show a + 4 = a + 4 from rfl]
    rw [show a + 5 = a + 5 from rfl, hmem 5 (by omega)]
  have h6 : s1.mem (a + 6) = s2.mem (a + 6) := hmem 6 (by omega)
  have h32 : rdLe32 s1.mem a = rdLe32 s2.mem a := by
    unfold rdLe32
    rw [show a + 1 = a + 1 from rfl, show a + 2 = a + 2 from rfl,
      show a + 3 = a + 3 from rfl]
    rw [show a = a + 0 by omega, hmem 0 (by omega)]
    rw [show a + 0 + 1 = a + 1 by omega, hmem 1 (by omega)]
    rw [show a + 0 + 2 = a + 2 by omega, hmem 2 (by omega)]
    rw [show a + 0 + 3 = a + 3 by omega, hmem 3 (by omega)]
  have hrb4 : memReadBytes s1.mem (a + 4) 4 = memReadBytes s2.mem (a + 4) 4 := by
    apply memReadBytes_congr
    intro i hi4
    rw [show a + 4 + i = a + (4 + i) by omega]
    exact hmem (4 + i) (by omega)
  have hrbp : memReadBytes s1.mem (a + 8) (rdLe16 s2.mem (a + 4))
      = memReadBytes s2.mem (a + 8) (rdLe16 s2.mem (a + 4)) := by
    apply memReadBytes_congr
    intro i hip
    rw [show a + 8 + i = a + (8 + i) by omega]
    exact hmem (8 + i) (by omega)
  dsimp only
  rw [h16, h6, h32, hrb4, hrbp]

/-- C2: alternating tear-safety. In an initialized, layout-conformant
state whose current block holds a record of in-bounds stored size, if
one of the two physical writes of StorageEepromAlternate_Write fails
(modelling an interrupted transfer before the in-RAM pointer flip),
then the call does not return OK, every slot's in-RAM entry (counter
and current block) is unchanged, and a subsequent
StorageEepromAlternate_Read of the slot returns exactly what it
returned before the write: the previous generation's data, never a
partially written record. -/
theorem C2_alternating_tear_safety
    (cfg : AltCfg) (o1 o2 : nv_outcome) (s : AltState) (index size : Nat)
    (data : List Nat) (k : Nat) (e : error_code_t)
    (hfit : cfg.est0 + cfg.est1 + cfg.est2 ≤ cfg.eeprom_size / 2)
    (hinit : s.is_initialized = true)
    (hi : index < NR_OF_STORAGES)
    (hcb : (s.entry index).current_block < 2)
    (haddr0 : (s.entry index).addr0 = altBlockAddr cfg 0 index)
    (haddr1 : (s.entry index).addr1 = altBlockAddr cfg 1 index)
    (hsz : size + 8 ≤ cfg.est index)
    (hprev : rdLe16 s.mem ((if (s.entry index).current_block = 0 then (s.entry index).addr0
        else (s.entry index).addr1) + 4) + 8 ≤ cfg.est index)
    (he : e ≠ .OK)
    (hfail : o1 = .fail k e ∨ (o1 = .ok ∧ o2 = .fail k e)) :
    (StorageEepromAlternate_Write cfg o1 o2 s index data size).1 ≠ .OK ∧
    (StorageEepromAlternate_Write cfg o1 o2 s index data size).2.entry = s.entry ∧
    ∀ bufsize,
      StorageEepromAlternate_Read (StorageEepromAlternate_Write cfg o1 o2 s index data size).2
        index bufsize = StorageEepromAlternate_Read s index bufsize := by
  have hne := alt_write_fail_result cfg o1 o2 s index size data k e he hfail
  have hent := alt_write_entry_unchanged_of_not_ok cfg o1 o2 s index size data hne
  have hii := alt_write_is_initialized cfg o1 o2 s index size data
  refine ⟨hne, hent, ?_⟩
  intro bufsize
  have hcb01 : (s.entry index).current_block = 0 ∨ (s.entry index).current_block = 1 := by
    omega
  have hidx3 : index = 0 ∨ index = 1 ∨ index = 2 := by
    unfold NR_OF_STORAGES at hi
    omega
  have hmemeq : ∀ i,
      i < 8 + rdLe16 s.mem
        ((if (s.entry index).current_block = 0 then (s.entry index).addr0
          else (s.entry index).addr1) + 4) →
      (StorageEepromAlternate_Write cfg o1 o2 s index data size).2.mem
          ((if (s.entry index).current_block = 0 then (s.entry index).addr0
            else (s.entry index).addr1) + i)
        = s.mem ((if (s.entry index).current_block = 0 then (s.entry index).addr0
            else (s.entry index).addr1) + i) := by
    intro i hib
    apply alt_write_mem_outside
    rcases hcb01 with h0 | h1
    · have hwa : altWriteAddr s index = altBlockAddr cfg 1 index := by
        unfold altWriteAddr
        rw [h0]
        rw [if_neg (by decide)]
        exact haddr1
      left
      rw [hwa]
      rcases hidx3 with h | h | h <;> subst h <;>
        simp [h0, haddr0, altBlockAddr, AltCfg.est] at hib hprev ⊢ <;>
        omega
    · have hwa : altWriteAddr s index = altBlockAddr cfg 0 index := by
        unfold altWriteAddr
        rw [h1]
        rw [if_pos (by decide)]
        exact haddr0
      right
      rw [hwa]
      rcases hidx3 with h | h | h <;> subst h <;>
        simp [h1, haddr1, altBlockAddr, AltCfg.est] at hib hprev hsz ⊢ <;>
        omega
  unfold StorageEepromAlternate_Read
  rw [hii, hinit, hent]
  rw [if_neg (show ¬(true = false) by simp), if_neg (show ¬(true = false) by simp)]
  rw [if_neg (show ¬(NR_OF_STORAGES ≤ index) by omega),
    if_neg (show ¬(NR_OF_STORAGES ≤ index) by omega)]
  exact alt_rmc_congr (StorageEepromAlternate_Write cfg o1 o2 s index data size).2 s
    index (s.entry index).current_block bufsize hent hmemeq

/-- C2 witness: with the header transfer failing after 3 bytes on the
concrete initialized state, the entry table is untouched and a read
still returns the previous generation's payload. -/
theorem C2_alternating_tear_safety_witness :
    (StorageEepromAlternate_Write exAltCfg (.fail 3 .I2C_ERROR) .ok exAltState 0
      [5, 6] 2).2.entry = exAltState.entry ∧
    StorageEepromAlternate_Read
      (StorageEepromAlternate_Write exAltCfg (.fail 3 .I2C_ERROR) .ok exAltState 0
        [5, 6] 2).2 0 8
      = StorageEepromAlternate_Read exAltState 0 8 := by
  have h := C2_alternating_tear_safety exAltCfg (.fail 3 .I2C_ERROR) .ok exAltState 0 2
    [5, 6] 3 .I2C_ERROR (by decide) (by decide) (by decide) (by decide) (by decide)
    (by decide) (by decide) (by decide) (by decide) (Or.inl rfl)
  exact ⟨h.2.1, h.2.2 8⟩

/-- Flipping a bit at one address leaves every other address intact. -/
theorem memFlipBit_ne (m : Mem) (fa j a : Nat) (h : a ≠ fa) :
    memFlipBit m fa j a = m a := by
  simp [memFlipBit, h]

/-- The flipped byte itself. -/
theorem memFlipBit_self (m : Mem) (fa j : Nat) :
    memFlipBit m fa j fa = m fa ^^^ 2 ^ j := by
  simp [memFlipBit]

/-- Page slice of a flash bit flip. -/
theorem flashFlipBit_self (fm : FlashMem) (p0 a0 j : Nat) :
    (flashFlipBit fm p0 a0 j) p0 = memFlipBit (fm p0) a0 j := by
  funext a
  simp [flashFlipBit, memFlipBit]

/-- Flash byte-range reads are the one-page memory reads. -/
theorem flashReadBytes_eq (fm : FlashMem) (p a l : Nat) :
    flashReadBytes fm p a l = memReadBytes (fm p) a l := rfl

/-- Flash 16-bit reads are the one-page memory reads. -/
theorem flashRdLe16_eq (fm : FlashMem) (p a : Nat) :
    flashRdLe16 fm p a = rdLe16 (fm p) a := rfl

/-- Flash 32-bit reads are the one-page memory reads. -/
theorem flashRdLe32_eq (fm : FlashMem) (p a : Nat) :
    flashRdLe32 fm p a = rdLe32 (fm p) a := rfl

/-- Flipping one bit inside a byte range read from memory changes its
Crc_Crc32 checksum, whatever the seed. -/
theorem crc_read_flip_ne (m : Mem) (base len k j seed : Nat)
    (hk : k < len) (hj : j < 8) :
    Crc_Crc32 (memReadBytes (memFlipBit m (base + k) j) base len) seed
      ≠ Crc_Crc32 (memReadBytes m base len) seed := by
  have hagree : ∀ i, i ≠ k →
      (fun i => memFlipBit m (base + k) j (base + i)) i = (fun i => m (base + i)) i := by
    intro i hik
    exact memFlipBit_ne m (base + k) j (base + i) (by omega)
  have hsplit := rangeMap_flip_split len k (fun i => m (base + i))
    (fun i => memFlipBit m (base + k) j (base + i)) hk hagree
  have hflipped : memReadBytes (memFlipBit m (base + k) j) base len
      = ((List.range len).map (fun i => m (base + i))).take k ++
        (m (base + k) ^^^ 2 ^ j) ::
          ((List.range len).map (fun i => m (base + i))).drop (k + 1) := by
    have h2 := hsplit.2
    dsimp only at h2
    rw [memFlipBit_self] at h2
    exact h2
  have horig : memReadBytes m base len
      = ((List.range len).map (fun i => m (base + i))).take k ++
        m (base + k) ::
          ((List.range len).map (fun i => m (base + i))).drop (k + 1) := hsplit.1
  rw [hflipped, horig]
  exact crc32_flip_bit_ne _ _ _ _ _ hj

/-- C6 (amended): for every stored record readable successfully before
modification, flipping any single bit of the stored payload causes the
next read of that slot to return STORAGE_CRC_MISMATCH, in both the
linear EEPROM backend and the flash backend. (The original claim also
promised STORAGE_CRC_MISMATCH for header bytes outside the checksum
field, but flipping the header's storage_id byte yields
STORAGE_INDEX_MISMATCH instead — see the counterexample.) -/
theorem C6_payload_flip_crc_mismatch :
    (∀ (cfg : EepromCfg) (s : EepromState) (index bufsize n k j : Nat)
      (payload : List Nat),
      StorageEeprom_Read cfg s index bufsize = .ok (n, payload) →
      k < n → j < 8 →
      StorageEeprom_Read cfg
        { s with fake_nv_memory :=
            memFlipBit s.fake_nv_memory (Storage_table_addr cfg index + 8 + k) j }
        index bufsize = .error .STORAGE_CRC_MISMATCH) ∧
    (∀ (s : FlashState) (storage_id bufsize n k j p a : Nat) (payload : List Nat),
      s.headers storage_id = some (p, a) →
      StorageFlash_Read s storage_id bufsize = .ok (n, payload) →
      k < n → j < 8 →
      StorageFlash_Read { s with mem := flashFlipBit s.mem p (a + 8 + k) j }
        storage_id bufsize = .error .STORAGE_CRC_MISMATCH) := by
  constructor
  · intro cfg s index bufsize n k j payload hread hk hj
    unfold StorageEeprom_Read at hread ⊢
    dsimp only at hread ⊢
    by_cases h1 : s.is_initialized = false
    · rw [if_pos h1] at hread
      exact absurd hread (by simp)
    rw [if_neg h1] at hread ⊢
    by_cases h2 : NR_OF_STORAGES ≤ index
    · rw [if_pos h2] at hread
      exact absurd hread (by simp)
    rw [if_neg h2] at hread ⊢
    by_cases h3 : Storage_table_addr cfg index + 8 ≥ FAKE_NV_MEMORY_size
    · rw [if_pos h3] at hread
      exact absurd hread (by simp)
    rw [if_neg h3] at hread ⊢
    have hb6 : memFlipBit s.fake_nv_memory (Storage_table_addr cfg index + 8 + k) j
        (Storage_table_addr cfg index + 6)
        = s.fake_nv_memory (Storage_table_addr cfg index + 6) :=
      memFlipBit_ne _ _ _ _ (by omega)
    have h16 : rdLe16 (memFlipBit s.fake_nv_memory (Storage_table_addr cfg index + 8 + k) j)
        (Storage_table_addr cfg index + 4)
        = rdLe16 s.fake_nv_memory (Storage_table_addr cfg index + 4) := by
      unfold rdLe16
      rw [memFlipBit_ne _ _ _ _ (by omega), memFlipBit_ne _ _ _ _ (by omega)]
    have h32 : rdLe32 (memFlipBit s.fake_nv_memory (Storage_table_addr cfg index + 8 + k) j)
        (Storage_table_addr cfg index)
        = rdLe32 s.fake_nv_memory (Storage_table_addr cfg index) := by
      unfold rdLe32
      rw [memFlipBit_ne _ _ _ _ (by omega), memFlipBit_ne _ _ _ _ (by omega),
        memFlipBit_ne _ _ _ _ (by omega), memFlipBit_ne _ _ _ _ (by omega)]
    have htail : memReadBytes
        (memFlipBit s.fake_nv_memory (Storage_table_addr cfg index + 8 + k) j)
        (Storage_table_addr cfg index + 4) 4
        = memReadBytes s.fake_nv_memory (Storage_table_addr cfg index + 4) 4 :=
      memReadBytes_congr _ _ (fun i hi => memFlipBit_ne _ _ _ _ (by omega))
    rw [hb6, h16, h32, htail]
    by_cases h4 : s.fake_nv_memory (Storage_table_addr cfg index + 6) ≠ index
    · rw [if_pos h4] at hread
      exact absurd hread (by simp)
    rw [if_neg h4] at hread ⊢
    by_cases h5 : rdLe16 s.fake_nv_memory (Storage_table_addr cfg index + 4) > bufsize
    · rw [if_pos h5] at hread
      exact absurd hread (by simp)
    rw [if_neg h5] at hread ⊢
    by_cases h6 : Storage_table_addr cfg index + 8
        + rdLe16 s.fake_nv_memory (Storage_table_addr cfg index + 4) ≥ FAKE_NV_MEMORY_size
    · rw [if_pos h6] at hread
      exact absurd hread (by simp)
    rw [if_neg h6] at hread ⊢
    by_cases h7 : rdLe32 s.fake_nv_memory (Storage_table_addr cfg index) ≠
        Crc_Crc32 (memReadBytes s.fake_nv_memory (Storage_table_addr cfg index + 8)
          (rdLe16 s.fake_nv_memory (Storage_table_addr cfg index + 4)))
          (Crc_Crc32 (memReadBytes s.fake_nv_memory (Storage_table_addr cfg index + 4) 4) 0)
    · rw [if_pos h7] at hread
      exact absurd hread (by simp)
    rw [if_neg h7] at hread
    simp only [Except.ok.injEq, Prod.mk.injEq] at hread
    have h7' := not_not.mp h7
    have hk' : k < rdLe16 s.fake_nv_memory (Storage_table_addr cfg index + 4) := by
      rw [hread.1]
      exact hk
    have hcond : rdLe32 s.fake_nv_memory (Storage_table_addr cfg index) ≠
        Crc_Crc32 (memReadBytes
          (memFlipBit s.fake_nv_memory (Storage_table_addr cfg index + 8 + k) j)
          (Storage_table_addr cfg index + 8)
          (rdLe16 s.fake_nv_memory (Storage_table_addr cfg index + 4)))
          (Crc_Crc32 (memReadBytes s.fake_nv_memory (Storage_table_addr cfg index + 4) 4) 0) := by
      intro heq
      exact crc_read_flip_ne s.fake_nv_memory (Storage_table_addr cfg index + 8)
        (rdLe16 s.fake_nv_memory (Storage_table_addr cfg index + 4)) k j
        (Crc_Crc32 (memReadBytes s.fake_nv_memory (Storage_table_addr cfg index + 4) 4) 0)
        hk' hj (heq.symm.trans h7')
    rw [if_pos hcond]
  · intro s storage_id bufsize n k j p a payload hhead hread hk hj
    unfold StorageFlash_Read at hread ⊢
    dsimp only at hread ⊢
    by_cases h1 : s.is_initialized = false
    · rw [if_pos h1] at hread
      exact absurd hread (by simp)
    rw [if_neg h1] at hread ⊢
    by_cases h2 : NR_OF_STORAGES ≤ storage_id
    · rw [if_pos h2] at hread
      exact absurd hread (by simp)
    rw [if_neg h2] at hread ⊢
    rw [hhead] at hread ⊢
    dsimp only at hread ⊢
    simp only [flashRdLe16_eq, flashRdLe32_eq, flashReadBytes_eq, flashFlipBit_self]
      at hread ⊢
    have h16 : rdLe16 (memFlipBit (s.mem p) (a + 8 + k) j) (a + 4)
        = rdLe16 (s.mem p) (a + 4) := by
      unfold rdLe16
      rw [memFlipBit_ne _ _ _ _ (by omega), memFlipBit_ne _ _ _ _ (by omega)]
    have h32 : rdLe32 (memFlipBit (s.mem p) (a + 8 + k) j) a = rdLe32 (s.mem p) a := by
      unfold rdLe32
      rw [memFlipBit_ne _ _ _ _ (by omega), memFlipBit_ne _ _ _ _ (by omega),
        memFlipBit_ne _ _ _ _ (by omega), memFlipBit_ne _ _ _ _ (by omega)]
    rw [h16, h32]
    by_cases h5 : rdLe16 (s.mem p) (a + 4) > bufsize
    · rw [if_pos h5] at hread
      exact absurd hread (by simp)
    rw [if_neg h5] at hread ⊢
    by_cases h7 : rdLe32 (s.mem p) a ≠
        Crc_Crc32 (memReadBytes (s.mem p) (a + 4) (4 + rdLe16 (s.mem p) (a + 4))) 0
    · rw [if_pos h7] at hread
      exact absurd hread (by simp)
    rw [if_neg h7] at hread
    simp only [Except.ok.injEq, Prod.mk.injEq] at hread
    have h7' := not_not.mp h7
    have hk' : 4 + k < 4 + rdLe16 (s.mem p) (a + 4) := by
      have hn := hread.1
      omega
    have hcond : rdLe32 (s.mem p) a ≠
        Crc_Crc32 (memReadBytes (memFlipBit (s.mem p) (a + 8 + k) j) (a + 4)
          (4 + rdLe16 (s.mem p) (a + 4))) 0 := by
      intro heq
      have hfa : a + 8 + k = a + 4 + (4 + k) := by omega
      rw [hfa] at heq
      exact crc_read_flip_ne (s.mem p) (a + 4) (4 + rdLe16 (s.mem p) (a + 4)) (4 + k) j 0
        hk' hj (heq.symm.trans h7')
    rw [if_pos hcond]

/-- C6 amended witness: flipping bit 2 of payload byte 1 of concrete
valid records makes both backends report STORAGE_CRC_MISMATCH. -/
theorem C6_payload_flip_crc_mismatch_witness :
    StorageEeprom_Read exEepromCfg
      { exEepromState with
        fake_nv_memory :=
          memFlipBit exEepromState.fake_nv_memory (Storage_table_addr exEepromCfg 0 + 8 + 1) 2 }
      0 16 = .error .STORAGE_CRC_MISMATCH ∧
    StorageFlash_Read { exFlashState1 with mem := flashFlipBit exFlashState1.mem 0 (0 + 8 + 1) 2 }
      0 8 = .error .STORAGE_CRC_MISMATCH :=
  ⟨C6_payload_flip_crc_mismatch.1 exEepromCfg exEepromState 0 16 4 1 2 [10, 20, 30, 40]
      (by decide) (by decide) (by decide),
   C6_payload_flip_crc_mismatch.2 exFlashState1 0 8 3 1 2 0 0 [1, 2, 3]
      (by decide) (by decide) (by decide) (by decide)⟩
